import Mathlib

/-!
# FinalTerm: spinlock mutex, polling condition variable, circular buffer

A shallow embedding of `src/main.c`.  Machine words (`uint32_t`) are natural
numbers with explicit reduction modulo `2^32` wherever the C code does
arithmetic on them.  Sequential functions are plain Lean functions; the two
tasks that run on the two harts are a step function on an explicit state.

Granularity of the step function: every try of `mutex_trylock` and every
`mutex_unlock` is one step (each is one `amoswap` instruction); every other
C statement or test that reads or writes shared memory is one step
(`buffer_put` and `buffer_get` are three steps each, the two operands of the
consumer's loop tests are read in separate steps).  The UART output and the
idle loops touch no shared variable and take no step.  The proof of mutual
exclusion uses only the mutex flag and the program points, so it does not
depend on how the statements between lock and unlock are cut into steps.

`State`, `init` and `run` model the two tasks started from the initialised
state.  `Program`, `boot` and `main_run` model the program as written, where
each hart first executes the initialisation stores of `main` and then its
task.  `print_uint` is modelled with bounds-checked accesses to its array.

`buffer_put_store` is the store of line 129 for `write_pos < 5`; every state
reached from `buffer_init` has its cursors in that range
(`reachable_cursors_in_range`, `gated_cursors_in_range`).
`buffer_put_store_words` gives the store for any `write_pos`, on the eight
words of the struct.
-/

namespace FinalTerm

/-! ## Machine words -/

/-- The modulus of `uint32_t` arithmetic, `2^32`. -/
def U32 : Nat := 4294967296

/-- The C expression `x + 1` (also `x++`) on a `uint32_t`. -/
def inc32 (x : Nat) : Nat := (x + 1) % U32

/-- The C expression `x - 1` (also `x--`) on a `uint32_t`. -/
def dec32 (x : Nat) : Nat := (x + U32 - 1) % U32

/-- The macro `BUFFER_SIZE` (line 13). -/
def BUFFER_SIZE : Nat := 5

/-! ## Mutex (lines 15-43) -/

/-- The enum `mutex_t` (lines 16-19). -/
inductive mutex_t where
  | MUTEX_UNLOCKED
  | MUTEX_LOCKED
  deriving DecidableEq

/-- `mutex_trylock` (lines 21-30): the atomic swap writes `MUTEX_LOCKED` and
yields the old value; the result is `old != MUTEX_LOCKED`.  Returns the
result and the new flag. -/
def mutex_trylock (mutex : mutex_t) : Bool × mutex_t :=
  let old := mutex
  (decide (old ≠ mutex_t.MUTEX_LOCKED), mutex_t.MUTEX_LOCKED)

/-- `mutex_unlock` (lines 36-43): the atomic swap writes zero. -/
def mutex_unlock (_mutex : mutex_t) : mutex_t := mutex_t.MUTEX_UNLOCKED

/-- `mutex_lock` (lines 32-34) run by a single thread: retry `mutex_trylock`
until it succeeds.  `fuel` bounds the number of tries; `none` means the loop
has not ended within the bound. -/
def mutex_lock : Nat → mutex_t → Option mutex_t
  | 0, _ => none
  | fuel + 1, mutex =>
    if (mutex_trylock mutex).1 then some (mutex_trylock mutex).2
    else mutex_lock fuel (mutex_trylock mutex).2

/-! ## Condition variable (lines 45-84) -/

/-- The struct `cond_t` (lines 46-50). -/
structure cond_t where
  lock : mutex_t
  waiting : Nat
  to_wake : Nat
  deriving DecidableEq

/-- `cond_init` (lines 52-55); the `lock` field is not written. -/
def cond_init (cv : cond_t) : cond_t :=
  { cv with waiting := 0, to_wake := 0 }

/-- Line 59 of `cond_wait`: `cv->waiting++`. -/
def cond_wait_enter (cv : cond_t) : cond_t :=
  { cv with waiting := inc32 cv.waiting }

/-- Lines 65-67 of `cond_wait`: `if (cv->to_wake > 0) { cv->to_wake--;
cv->waiting--; ... break; }`.  The Boolean tells whether the branch was taken
(the poll loop is left). -/
def cond_wait_consume (cv : cond_t) : Bool × cond_t :=
  if cv.to_wake > 0 then
    (true, { cv with to_wake := dec32 cv.to_wake, waiting := dec32 cv.waiting })
  else (false, cv)

/-- Lines 80-82 of `cond_signal`: `if (cv->waiting > 0) { cv->to_wake++; }`. -/
def cond_signal_body (cv : cond_t) : cond_t :=
  if cv.waiting > 0 then { cv with to_wake := inc32 cv.to_wake } else cv

/-- `cond_signal` (lines 78-84) run by a single thread: take the internal
lock, run the guarded increment, release the internal lock.  `none` means
`mutex_lock` has not returned within `fuel` tries. -/
def cond_signal (fuel : Nat) (cv : cond_t) : Option cond_t :=
  match mutex_lock fuel cv.lock with
  | none => none
  | some l =>
    let cv1 := cond_signal_body { cv with lock := l }
    some { cv1 with lock := mutex_unlock cv1.lock }

/-! ## Circular buffer (lines 106-139) -/

/-- The struct `circular_buffer_t` (lines 107-112).  `items k` is the slot
`items[k]`; the array has the slots `0 .. BUFFER_SIZE - 1`, and only those
are meaningful.  In memory the struct is eight consecutive 32-bit words:
`items[0..4]`, then `read_pos`, `write_pos`, `count`. -/
structure circular_buffer_t where
  items : Nat → Nat
  read_pos : Nat
  write_pos : Nat
  count : Nat

/-- `buffer_init` (lines 114-118); the slots are not written. -/
def buffer_init (buf : circular_buffer_t) : circular_buffer_t :=
  { buf with read_pos := 0, write_pos := 0, count := 0 }

/-- `buffer_is_full` (lines 120-122). -/
def buffer_is_full (buf : circular_buffer_t) : Bool :=
  decide (buf.count = BUFFER_SIZE)

/-- `buffer_is_empty` (lines 124-126). -/
def buffer_is_empty (buf : circular_buffer_t) : Bool :=
  decide (buf.count = 0)

/-- Line 129: `buf->items[buf->write_pos] = item`, for `write_pos < 5` (the
store stays inside the array).  `buffer_put_store_words` below covers the
store that leaves the array. -/
def buffer_put_store (buf : circular_buffer_t) (item : Nat) : circular_buffer_t :=
  { buf with items := fun k => if k = buf.write_pos then item else buf.items k }

/-- Line 130: `buf->write_pos = (buf->write_pos + 1) % BUFFER_SIZE`. -/
def buffer_put_advance (buf : circular_buffer_t) : circular_buffer_t :=
  { buf with write_pos := inc32 buf.write_pos % BUFFER_SIZE }

/-- Line 131: `buf->count++`. -/
def buffer_put_count (buf : circular_buffer_t) : circular_buffer_t :=
  { buf with count := inc32 buf.count }

/-- `buffer_put` (lines 128-132). -/
def buffer_put (buf : circular_buffer_t) (item : Nat) : circular_buffer_t :=
  buffer_put_count (buffer_put_advance (buffer_put_store buf item))

/-- Line 129 on the eight words of the struct: the store to
`items[write_pos]` goes to word `write_pos`, which is a slot of the array for
`write_pos < 5`, the field `read_pos` for 5, `write_pos` for 6 and `count`
for 7; `none` when the word lies outside the struct (`write_pos ≥ 8`). -/
def buffer_put_store_words (buf : circular_buffer_t) (item : Nat) : Option circular_buffer_t :=
  if buf.write_pos < 5 then some (buffer_put_store buf item)
  else if buf.write_pos = 5 then some { buf with read_pos := item }
  else if buf.write_pos = 6 then some { buf with write_pos := item }
  else if buf.write_pos = 7 then some { buf with count := item }
  else none

/-- `buffer_put` (lines 128-132) with the store of line 129 taken on the
words of the struct. -/
def buffer_put_words (buf : circular_buffer_t) (item : Nat) : Option circular_buffer_t :=
  match buffer_put_store_words buf item with
  | none => none
  | some b => some (buffer_put_count (buffer_put_advance b))

/-- Line 135: the value read by `buf->items[buf->read_pos]`. -/
def buffer_get_load (buf : circular_buffer_t) : Nat :=
  buf.items buf.read_pos

/-- Line 136: `buf->read_pos = (buf->read_pos + 1) % BUFFER_SIZE`. -/
def buffer_get_advance (buf : circular_buffer_t) : circular_buffer_t :=
  { buf with read_pos := inc32 buf.read_pos % BUFFER_SIZE }

/-- Line 137: `buf->count--`. -/
def buffer_get_count (buf : circular_buffer_t) : circular_buffer_t :=
  { buf with count := dec32 buf.count }

/-- `buffer_get` (lines 134-139): the returned item and the new buffer. -/
def buffer_get (buf : circular_buffer_t) : Nat × circular_buffer_t :=
  let item := buffer_get_load buf
  (item, buffer_get_count (buffer_get_advance buf))

/-! ## Sequences of gated buffer calls -/

/-- A call made on the buffer. -/
inductive BufferCall where
  | put (item : Nat)
  | get
  deriving DecidableEq

/-- The result of running a list of calls: the buffer, the items passed to
`buffer_put` so far, and the items returned by `buffer_get` so far, both in
call order. -/
structure BufferRun where
  buf : circular_buffer_t
  puts : List Nat
  gets : List Nat

/-- One gated call: a put is made only when `buffer_is_full` is false, a get
only when `buffer_is_empty` is false; `none` when the gate refuses. -/
def gated_call (r : BufferRun) : BufferCall → Option BufferRun
  | BufferCall.put item =>
    if buffer_is_full r.buf then none
    else some { r with buf := buffer_put r.buf item, puts := r.puts ++ [item] }
  | BufferCall.get =>
    if buffer_is_empty r.buf then none
    else some { r with buf := (buffer_get r.buf).2, gets := r.gets ++ [(buffer_get r.buf).1] }

/-- Run a list of gated calls in order. -/
def gated_calls : BufferRun → List BufferCall → Option BufferRun
  | r, [] => some r
  | r, c :: cs =>
    match gated_call r c with
    | none => none
    | some r1 => gated_calls r1 cs

/-- The run that starts right after `buffer_init`. -/
def gated_start (buf : circular_buffer_t) : BufferRun :=
  { buf := buffer_init buf, puts := [], gets := [] }

/-! ## Program points of `cond_wait` and `cond_signal` -/

/-- Program points inside `cond_wait` (lines 57-76); each names the statement
that is executed next. -/
inductive WaitPc where
  /-- Line 58, `mutex_lock(&cv->lock)`. -/
  | lock_cv
  /-- Line 59, `cv->waiting++`. -/
  | inc_waiting
  /-- Line 60, `mutex_unlock(&cv->lock)`. -/
  | unlock_cv
  /-- Line 61, `mutex_unlock(mutex)`. -/
  | release
  /-- Line 64, `mutex_lock(&cv->lock)` in the poll loop. -/
  | poll_lock
  /-- Line 65, the test `cv->to_wake > 0`. -/
  | poll_test
  /-- Line 66, `cv->to_wake--`. -/
  | dec_to_wake
  /-- Line 67, `cv->waiting--`. -/
  | dec_waiting
  /-- Lines 68-69, `mutex_unlock(&cv->lock); break;`. -/
  | hit_unlock
  /-- Lines 71-72, `mutex_unlock(&cv->lock)` and the idle loop. -/
  | miss_unlock
  /-- Line 75, `mutex_lock(mutex)`. -/
  | relock
  deriving DecidableEq

/-- One step of `cond_wait` at program point `pc` on the condition variable
`cv` and the caller's mutex `mutex`.  The first component is the next
program point, `none` once `cond_wait` has returned.  Each try of
`mutex_lock` is one step. -/
def cond_wait_step (pc : WaitPc) (cv : cond_t) (mutex : mutex_t) :
    Option WaitPc × cond_t × mutex_t :=
  match pc with
  | WaitPc.lock_cv =>
    if (mutex_trylock cv.lock).1 then
      (some WaitPc.inc_waiting, { cv with lock := (mutex_trylock cv.lock).2 }, mutex)
    else (some WaitPc.lock_cv, { cv with lock := (mutex_trylock cv.lock).2 }, mutex)
  | WaitPc.inc_waiting => (some WaitPc.unlock_cv, cond_wait_enter cv, mutex)
  | WaitPc.unlock_cv => (some WaitPc.release, { cv with lock := mutex_unlock cv.lock }, mutex)
  | WaitPc.release => (some WaitPc.poll_lock, cv, mutex_unlock mutex)
  | WaitPc.poll_lock =>
    if (mutex_trylock cv.lock).1 then
      (some WaitPc.poll_test, { cv with lock := (mutex_trylock cv.lock).2 }, mutex)
    else (some WaitPc.poll_lock, { cv with lock := (mutex_trylock cv.lock).2 }, mutex)
  | WaitPc.poll_test =>
    if cv.to_wake > 0 then (some WaitPc.dec_to_wake, cv, mutex)
    else (some WaitPc.miss_unlock, cv, mutex)
  | WaitPc.dec_to_wake => (some WaitPc.dec_waiting, { cv with to_wake := dec32 cv.to_wake }, mutex)
  | WaitPc.dec_waiting => (some WaitPc.hit_unlock, { cv with waiting := dec32 cv.waiting }, mutex)
  | WaitPc.hit_unlock => (some WaitPc.relock, { cv with lock := mutex_unlock cv.lock }, mutex)
  | WaitPc.miss_unlock => (some WaitPc.poll_lock, { cv with lock := mutex_unlock cv.lock }, mutex)
  | WaitPc.relock =>
    if (mutex_trylock mutex).1 then (none, cv, (mutex_trylock mutex).2)
    else (some WaitPc.relock, cv, (mutex_trylock mutex).2)

/-- Program points inside `cond_signal` (lines 78-84). -/
inductive SigPc where
  /-- Line 79, `mutex_lock(&cv->lock)`. -/
  | lock_cv
  /-- Line 80, the test `cv->waiting > 0`. -/
  | test
  /-- Line 81, `cv->to_wake++`. -/
  | inc_to_wake
  /-- Line 83, `mutex_unlock(&cv->lock)`. -/
  | unlock_cv
  deriving DecidableEq

/-- One step of `cond_signal` at program point `pc`; the next program point
is `none` once `cond_signal` has returned. -/
def cond_signal_step (pc : SigPc) (cv : cond_t) : Option SigPc × cond_t :=
  match pc with
  | SigPc.lock_cv =>
    if (mutex_trylock cv.lock).1 then
      (some SigPc.test, { cv with lock := (mutex_trylock cv.lock).2 })
    else (some SigPc.lock_cv, { cv with lock := (mutex_trylock cv.lock).2 })
  | SigPc.test =>
    if cv.waiting > 0 then (some SigPc.inc_to_wake, cv) else (some SigPc.unlock_cv, cv)
  | SigPc.inc_to_wake => (some SigPc.unlock_cv, { cv with to_wake := inc32 cv.to_wake })
  | SigPc.unlock_cv => (none, { cv with lock := mutex_unlock cv.lock })

/-- Run `cond_signal` step by step from program point `pc` by a single
thread, for at most `fuel` steps; `none` when it has not returned by then. -/
def cond_signal_steps : Nat → SigPc → cond_t → Option cond_t
  | 0, _, _ => none
  | fuel + 1, pc, cv =>
    match (cond_signal_step pc cv).1 with
    | none => some (cond_signal_step pc cv).2
    | some pc1 => cond_signal_steps fuel pc1 (cond_signal_step pc cv).2

/-- Inside `cond_wait`, the caller's mutex is held up to and including the
point where line 61 is about to release it. -/
def WaitPc.holds_mutex : WaitPc → Bool
  | WaitPc.lock_cv => true
  | WaitPc.inc_waiting => true
  | WaitPc.unlock_cv => true
  | WaitPc.release => true
  | _ => false

/-- Inside `cond_wait`, the program points between a successful
`mutex_lock(&cv->lock)` and the matching `mutex_unlock(&cv->lock)`. -/
def WaitPc.holds_cv : WaitPc → Bool
  | WaitPc.inc_waiting => true
  | WaitPc.unlock_cv => true
  | WaitPc.poll_test => true
  | WaitPc.dec_to_wake => true
  | WaitPc.dec_waiting => true
  | WaitPc.hit_unlock => true
  | WaitPc.miss_unlock => true
  | _ => false

/-- Inside `cond_signal`, the program points between the successful
`mutex_lock(&cv->lock)` and the `mutex_unlock(&cv->lock)`. -/
def SigPc.holds_cv : SigPc → Bool
  | SigPc.lock_cv => false
  | _ => true

/-! ## The two tasks as interleaved processes (lines 141-200) -/

/-- Program points of `producer_task` (lines 148-174). -/
inductive ProducerPc where
  /-- Line 153, `mutex_lock(&mutex)`. -/
  | lock
  /-- Line 155, the test `buffer_is_full(&buffer)`; when false, line 160
  `item++` follows. -/
  | check_full
  /-- Line 157, inside `cond_wait(&not_full, &mutex)`. -/
  | wait (w : WaitPc)
  /-- Line 161, statement 129 of `buffer_put`. -/
  | put_store
  /-- Line 161, statement 130 of `buffer_put`. -/
  | put_advance
  /-- Line 161, statement 131 of `buffer_put`. -/
  | put_count
  /-- Line 166, inside `cond_signal(&not_empty)`. -/
  | signal (g : SigPc)
  /-- Line 167, `mutex_unlock(&mutex)`, then `i++` and the test `i < 10`. -/
  | unlock
  /-- Line 173, `producer_done = true`. -/
  | set_done
  /-- The task has returned. -/
  | done
  deriving DecidableEq

/-- Program points of `consumer_task` (lines 176-200). -/
inductive ConsumerPc where
  /-- Line 179, the read of `producer_done` in the outer test. -/
  | outer_done
  /-- Line 179, the call `buffer_is_empty(&buffer)` in the outer test. -/
  | outer_empty
  /-- Line 180, `mutex_lock(&mutex)`. -/
  | lock
  /-- Line 182, the read of `producer_done` in the inner test. -/
  | inner_done
  /-- Line 182, the call `buffer_is_empty(&buffer)` in the inner test. -/
  | inner_empty
  /-- Line 184, inside `cond_wait(&not_empty, &mutex)`. -/
  | wait (w : WaitPc)
  /-- Line 187, the test `!buffer_is_empty(&buffer)`. -/
  | if_empty
  /-- Line 188, statement 135 of `buffer_get`. -/
  | get_load
  /-- Line 188, statement 136 of `buffer_get`. -/
  | get_advance
  /-- Line 188, statements 137-138 of `buffer_get`. -/
  | get_count
  /-- Line 192, inside `cond_signal(&not_full)`. -/
  | signal (g : SigPc)
  /-- Line 195, `mutex_unlock(&mutex)`. -/
  | unlock
  /-- The task has returned. -/
  | done
  deriving DecidableEq

/-- The shared variables of lines 142-146, the locals of the two tasks, and
three history variables that no step reads: the values returned by
`buffer_get` so far, the number of `cond_signal(&not_empty)` calls made so
far, and the number of times `cond_wait(&not_empty, ..)` has left its poll
loop. -/
structure State where
  mutex : mutex_t
  not_empty : cond_t
  not_full : cond_t
  buffer : circular_buffer_t
  producer_done : Bool
  ppc : ProducerPc
  p_i : Nat
  p_item : Nat
  cpc : ConsumerPc
  c_item : Nat
  consumed : List Nat
  signals_not_empty : Nat
  wakeups_not_empty : Nat

/-- Where `producer_task` continues after a step of `cond_wait`. -/
def ProducerPc.after_wait : Option WaitPc → ProducerPc
  | some w => ProducerPc.wait w
  | none => ProducerPc.check_full

/-- Where `producer_task` continues after a step of `cond_signal`. -/
def ProducerPc.after_signal : Option SigPc → ProducerPc
  | some g => ProducerPc.signal g
  | none => ProducerPc.unlock

/-- Where `consumer_task` continues after a step of `cond_wait`. -/
def ConsumerPc.after_wait : Option WaitPc → ConsumerPc
  | some w => ConsumerPc.wait w
  | none => ConsumerPc.inner_done

/-- Where `consumer_task` continues after a step of `cond_signal`. -/
def ConsumerPc.after_signal : Option SigPc → ConsumerPc
  | some g => ConsumerPc.signal g
  | none => ConsumerPc.unlock

/-- One step of `producer_task` (lines 148-174). -/
def producer_task_step (s : State) : State :=
  match s.ppc with
  | ProducerPc.lock =>
    if (mutex_trylock s.mutex).1 then
      { s with mutex := (mutex_trylock s.mutex).2, ppc := ProducerPc.check_full }
    else { s with mutex := (mutex_trylock s.mutex).2 }
  | ProducerPc.check_full =>
    if buffer_is_full s.buffer then { s with ppc := ProducerPc.wait WaitPc.lock_cv }
    else { s with p_item := inc32 s.p_item, ppc := ProducerPc.put_store }
  | ProducerPc.wait w =>
    { s with
      not_full := (cond_wait_step w s.not_full s.mutex).2.1
      mutex := (cond_wait_step w s.not_full s.mutex).2.2
      ppc := ProducerPc.after_wait (cond_wait_step w s.not_full s.mutex).1 }
  | ProducerPc.put_store =>
    { s with buffer := buffer_put_store s.buffer s.p_item, ppc := ProducerPc.put_advance }
  | ProducerPc.put_advance =>
    { s with buffer := buffer_put_advance s.buffer, ppc := ProducerPc.put_count }
  | ProducerPc.put_count =>
    { s with
      buffer := buffer_put_count s.buffer
      ppc := ProducerPc.signal SigPc.lock_cv
      signals_not_empty := s.signals_not_empty + 1 }
  | ProducerPc.signal g =>
    { s with
      not_empty := (cond_signal_step g s.not_empty).2
      ppc := ProducerPc.after_signal (cond_signal_step g s.not_empty).1 }
  | ProducerPc.unlock =>
    { s with
      mutex := mutex_unlock s.mutex
      p_i := s.p_i + 1
      ppc := if s.p_i + 1 < 10 then ProducerPc.lock else ProducerPc.set_done }
  | ProducerPc.set_done => { s with producer_done := true, ppc := ProducerPc.done }
  | ProducerPc.done => s

/-- One step of `consumer_task` (lines 176-200). -/
def consumer_task_step (s : State) : State :=
  match s.cpc with
  | ConsumerPc.outer_done =>
    if !s.producer_done then { s with cpc := ConsumerPc.lock }
    else { s with cpc := ConsumerPc.outer_empty }
  | ConsumerPc.outer_empty =>
    if !buffer_is_empty s.buffer then { s with cpc := ConsumerPc.lock }
    else { s with cpc := ConsumerPc.done }
  | ConsumerPc.lock =>
    if (mutex_trylock s.mutex).1 then
      { s with mutex := (mutex_trylock s.mutex).2, cpc := ConsumerPc.inner_done }
    else { s with mutex := (mutex_trylock s.mutex).2 }
  | ConsumerPc.inner_done =>
    if !s.producer_done then { s with cpc := ConsumerPc.inner_empty }
    else { s with cpc := ConsumerPc.if_empty }
  | ConsumerPc.inner_empty =>
    if buffer_is_empty s.buffer then { s with cpc := ConsumerPc.wait WaitPc.lock_cv }
    else { s with cpc := ConsumerPc.if_empty }
  | ConsumerPc.wait w =>
    { s with
      not_empty := (cond_wait_step w s.not_empty s.mutex).2.1
      mutex := (cond_wait_step w s.not_empty s.mutex).2.2
      cpc := ConsumerPc.after_wait (cond_wait_step w s.not_empty s.mutex).1
      wakeups_not_empty :=
        if w = WaitPc.hit_unlock then s.wakeups_not_empty + 1 else s.wakeups_not_empty }
  | ConsumerPc.if_empty =>
    if !buffer_is_empty s.buffer then { s with cpc := ConsumerPc.get_load }
    else { s with cpc := ConsumerPc.unlock }
  | ConsumerPc.get_load =>
    { s with c_item := buffer_get_load s.buffer, cpc := ConsumerPc.get_advance }
  | ConsumerPc.get_advance =>
    { s with buffer := buffer_get_advance s.buffer, cpc := ConsumerPc.get_count }
  | ConsumerPc.get_count =>
    { s with
      buffer := buffer_get_count s.buffer
      consumed := s.consumed ++ [s.c_item]
      cpc := ConsumerPc.signal SigPc.lock_cv }
  | ConsumerPc.signal g =>
    { s with
      not_full := (cond_signal_step g s.not_full).2
      cpc := ConsumerPc.after_signal (cond_signal_step g s.not_full).1 }
  | ConsumerPc.unlock => { s with mutex := mutex_unlock s.mutex, cpc := ConsumerPc.outer_done }
  | ConsumerPc.done => s

/-- The static initialisers of lines 142-146 followed by the three
initialisation calls of `main` (lines 203-205); the producer is at the head
of its first loop iteration (`i = 0 < 10`), the consumer at its outer test. -/
def init : State :=
  { mutex := mutex_t.MUTEX_UNLOCKED
    not_empty := cond_init { lock := mutex_t.MUTEX_UNLOCKED, waiting := 0, to_wake := 0 }
    not_full := cond_init { lock := mutex_t.MUTEX_UNLOCKED, waiting := 0, to_wake := 0 }
    buffer := buffer_init { items := fun _ => 0, read_pos := 0, write_pos := 0, count := 0 }
    producer_done := false
    ppc := ProducerPc.lock
    p_i := 0
    p_item := 0
    cpc := ConsumerPc.outer_done
    c_item := 0
    consumed := []
    signals_not_empty := 0
    wakeups_not_empty := 0 }

/-- The two harts. -/
inductive Hart where
  | producer
  | consumer
  deriving DecidableEq

/-- One step of the hart `h`. -/
def step (h : Hart) (s : State) : State :=
  match h with
  | Hart.producer => producer_task_step s
  | Hart.consumer => consumer_task_step s

/-- Run a schedule: the harts take their steps in the order listed. -/
def run : List Hart → State → State
  | [], s => s
  | h :: sched, s => run sched (step h s)

/-- The states some schedule reaches from `init`. -/
def Reachable (s : State) : Prop := ∃ sched : List Hart, run sched init = s

/-- The producer is between a successful `mutex_lock(&mutex)` and the
matching `mutex_unlock(&mutex)`. -/
def ProducerPc.holds_mutex : ProducerPc → Bool
  | ProducerPc.lock => false
  | ProducerPc.wait w => w.holds_mutex
  | ProducerPc.set_done => false
  | ProducerPc.done => false
  | _ => true

/-- The consumer is between a successful `mutex_lock(&mutex)` and the
matching `mutex_unlock(&mutex)`. -/
def ConsumerPc.holds_mutex : ConsumerPc → Bool
  | ConsumerPc.outer_done => false
  | ConsumerPc.outer_empty => false
  | ConsumerPc.lock => false
  | ConsumerPc.wait w => w.holds_mutex
  | ConsumerPc.done => false
  | _ => true

/-- The producer has left its `for` loop. -/
def ProducerPc.left_loop : ProducerPc → Bool
  | ProducerPc.set_done => true
  | ProducerPc.done => true
  | _ => false

/-- The consumer has left its outer `while` loop. -/
def ConsumerPc.left_loop : ConsumerPc → Bool
  | ConsumerPc.done => true
  | _ => false

/-- The consumer is in the poll loop of `cond_wait(&not_empty, &mutex)`
(lines 63-73). -/
def ConsumerPc.polling : ConsumerPc → Bool
  | ConsumerPc.wait WaitPc.poll_lock => true
  | ConsumerPc.wait WaitPc.poll_test => true
  | ConsumerPc.wait WaitPc.dec_to_wake => true
  | ConsumerPc.wait WaitPc.dec_waiting => true
  | ConsumerPc.wait WaitPc.hit_unlock => true
  | ConsumerPc.wait WaitPc.miss_unlock => true
  | _ => false

/-- The items passed to `buffer_put` by a list of calls, in call order. -/
def put_items : List BufferCall → List Nat
  | [] => []
  | BufferCall.put item :: cs => item :: put_items cs
  | BufferCall.get :: cs => put_items cs

/-- The number of `buffer_get` calls in a list of calls. -/
def get_calls : List BufferCall → Nat
  | [] => 0
  | BufferCall.put _ :: cs => get_calls cs
  | BufferCall.get :: cs => get_calls cs + 1

/-- The ring represents a queue: the cursors are `count` apart, the calls
balance, the items returned are the first items put, and the `count` slots
from `read_pos` on hold the items put and not yet returned, oldest first. -/
def RingInv (r : BufferRun) : Prop :=
  r.buf.read_pos < 5 ∧ r.buf.count ≤ 5 ∧
  r.buf.write_pos = (r.buf.read_pos + r.buf.count) % 5 ∧
  r.buf.count + r.gets.length = r.puts.length ∧
  r.gets = r.puts.take r.gets.length ∧
  ∀ j : Nat, j < r.buf.count →
    r.puts[r.gets.length + j]? = some (r.buf.items ((r.buf.read_pos + j) % 5))

/-- The producer is inside the internal critical section of `not_empty`
(it holds `not_empty.lock`). -/
def ProducerPc.in_not_empty : ProducerPc → Bool
  | ProducerPc.signal g => g.holds_cv
  | _ => false

/-- The consumer is inside the internal critical section of `not_empty`. -/
def ConsumerPc.in_not_empty : ConsumerPc → Bool
  | ConsumerPc.wait w => w.holds_cv
  | _ => false

/-- The shared mutex is locked exactly while one task is a holder, and the
two tasks are never holders together. -/
structure MutexInv (s : State) : Prop where
  excl : (s.ppc.holds_mutex && s.cpc.holds_mutex) = false
  flag : decide (s.mutex = mutex_t.MUTEX_LOCKED) = (s.ppc.holds_mutex || s.cpc.holds_mutex)

/-- The flag of a mutex as a number: `1` when locked. -/
def mutex_t.held : mutex_t → Nat
  | mutex_t.MUTEX_UNLOCKED => 0
  | mutex_t.MUTEX_LOCKED => 1

/-- The producer has made a `cond_signal(&not_empty)` call whose guarded
increment is still ahead (`1`) or not (`0`). -/
def ProducerPc.signal_pending : ProducerPc → Nat
  | ProducerPc.signal SigPc.lock_cv => 1
  | ProducerPc.signal SigPc.test => 1
  | ProducerPc.signal SigPc.inc_to_wake => 1
  | _ => 0

/-- The consumer has executed `to_wake--` on `not_empty` and not yet left the
poll loop (`1`) or not (`0`). -/
def ConsumerPc.wake_pending : ConsumerPc → Nat
  | ConsumerPc.wait WaitPc.dec_waiting => 1
  | ConsumerPc.wait WaitPc.hit_unlock => 1
  | _ => 0

/-- The consumer has seen `to_wake > 0` on `not_empty` and is about to
execute `to_wake--` (`1`) or not (`0`). -/
def ConsumerPc.wake_due : ConsumerPc → Nat
  | ConsumerPc.wait WaitPc.dec_to_wake => 1
  | _ => 0

/-- The internal lock of `not_empty` is locked exactly while one task is in
its critical section, never both; the consumer decrements `to_wake` only
when it is positive; and every wakeup consumed or pending is covered by a
`cond_signal(&not_empty)` call already made. -/
structure NotEmptyInv (s : State) : Prop where
  lock : s.ppc.in_not_empty.toNat + s.cpc.in_not_empty.toNat = s.not_empty.lock.held
  wake : s.cpc.wake_due ≤ s.not_empty.to_wake
  hist : s.wakeups_not_empty + s.not_empty.to_wake + s.cpc.wake_pending
    + s.ppc.signal_pending ≤ s.signals_not_empty

/-- The local `item` of the producer is one ahead of `i` (`1`) or equal to
it (`0`): between line 160 and the `i++` of the loop. -/
def ProducerPc.item_ahead : ProducerPc → Nat
  | ProducerPc.put_store => 1
  | ProducerPc.put_advance => 1
  | ProducerPc.put_count => 1
  | ProducerPc.signal _ => 1
  | ProducerPc.unlock => 1
  | _ => 0

/-- The producer is inside `buffer_put` with `count++` still ahead. -/
def ProducerPc.count_pending : ProducerPc → Nat
  | ProducerPc.put_store => 1
  | ProducerPc.put_advance => 1
  | ProducerPc.put_count => 1
  | _ => 0

/-- The producer is inside `buffer_put` with the advance of `write_pos`
still ahead. -/
def ProducerPc.pos_pending : ProducerPc → Nat
  | ProducerPc.put_store => 1
  | ProducerPc.put_advance => 1
  | _ => 0

/-- The producer is inside `buffer_put` with the store still ahead. -/
def ProducerPc.store_pending : ProducerPc → Nat
  | ProducerPc.put_store => 1
  | _ => 0

/-- The producer is inside its `for` loop (`1`) or has left it (`0`). -/
def ProducerPc.in_loop : ProducerPc → Nat
  | ProducerPc.set_done => 0
  | ProducerPc.done => 0
  | _ => 1

/-- The producer has executed `producer_done = true` (`1`) or not (`0`). -/
def ProducerPc.has_set_done : ProducerPc → Nat
  | ProducerPc.done => 1
  | _ => 0

/-- The consumer is inside `buffer_get` (`1`) or not (`0`). -/
def ConsumerPc.getting : ConsumerPc → Nat
  | ConsumerPc.get_load => 1
  | ConsumerPc.get_advance => 1
  | ConsumerPc.get_count => 1
  | _ => 0

/-- The consumer is inside `buffer_get` and has loaded the item. -/
def ConsumerPc.loaded : ConsumerPc → Bool
  | ConsumerPc.get_advance => true
  | ConsumerPc.get_count => true
  | _ => false

/-- The consumer is inside `buffer_get` and has advanced `read_pos` (`1`) or
not (`0`). -/
def ConsumerPc.pos_done : ConsumerPc → Nat
  | ConsumerPc.get_count => 1
  | _ => 0

/-- The consumer has read `producer_done` as true in its outer test and not
re-entered the loop since (`1`), or not (`0`). -/
def ConsumerPc.saw_done : ConsumerPc → Nat
  | ConsumerPc.outer_empty => 1
  | ConsumerPc.done => 1
  | _ => 0

/-- The consumer has returned (`1`) or not (`0`). -/
def ConsumerPc.has_left : ConsumerPc → Nat
  | ConsumerPc.done => 1
  | _ => 0

/-- The buffer holds exactly the values produced and not yet consumed:
`item` counts the puts begun, `consumed` the gets completed, and the slots
`k mod 5` for `consumed.length ≤ k < item` hold `k + 1`.  The numeric fields
use the `0`/`1` program-point indicators above. -/
structure DataInv (s : State) : Prop where
  i_item : s.p_item = s.p_i + s.ppc.item_ahead
  i_hi : s.p_i + s.ppc.in_loop ≤ 10
  i_lo : 10 ≤ s.p_i + 10 * s.ppc.in_loop
  done_flag : s.producer_done.toNat = s.ppc.has_set_done
  count_eq : s.buffer.count + s.consumed.length + s.ppc.count_pending = s.p_item
  count_le : s.buffer.count + s.ppc.count_pending ≤ 5
  count_pos : s.cpc.getting ≤ s.buffer.count
  wpos : s.buffer.write_pos = (s.p_item - s.ppc.pos_pending) % 5
  rpos : s.buffer.read_pos = (s.consumed.length + s.cpc.pos_done) % 5
  items : ∀ k : Nat, s.consumed.length ≤ k → k + s.ppc.store_pending < s.p_item →
    s.buffer.items (k % 5) = k + 1
  consumed_eq : s.consumed = List.range' 1 s.consumed.length
  c_item : s.cpc.loaded = true → s.c_item = s.consumed.length + 1
  saw_done : s.cpc.saw_done ≤ s.producer_done.toNat
  final : s.buffer.count + 5 * s.cpc.has_left ≤ 5

/-! ## The critical sections of a condition variable as events -/

/-- The three critical sections a condition variable runs under its internal
lock: `waiting++` of `cond_wait` (line 59), one poll of `cond_wait` (lines
65-67), and the body of `cond_signal` (lines 80-82). -/
inductive CvEvent where
  | wait_enter
  | wait_poll
  | signal
  deriving DecidableEq

/-- A condition variable with two counters of its history: the `cond_signal`
calls made and the `cond_wait` calls that have left the poll loop. -/
structure CvTrace where
  cv : cond_t
  signals : Nat
  wakeups : Nat
  deriving DecidableEq

/-- One critical section, run atomically. -/
def cv_event (t : CvTrace) : CvEvent → CvTrace
  | CvEvent.wait_enter => { t with cv := cond_wait_enter t.cv }
  | CvEvent.wait_poll =>
    { t with
      cv := (cond_wait_consume t.cv).2
      wakeups := if (cond_wait_consume t.cv).1 then t.wakeups + 1 else t.wakeups }
  | CvEvent.signal => { t with cv := cond_signal_body t.cv, signals := t.signals + 1 }

/-- A list of critical sections, run in order. -/
def cv_events : CvTrace → List CvEvent → CvTrace
  | t, [] => t
  | t, e :: es => cv_events (cv_event t e) es

/-- The condition variable after `cond_init`, with no call made yet. -/
def cv_start : CvTrace :=
  { cv := cond_init { lock := mutex_t.MUTEX_UNLOCKED, waiting := 0, to_wake := 0 }
    signals := 0
    wakeups := 0 }

/-! ## A schedule that loses the last wakeup -/

/-- One round: the producer runs a whole loop iteration (9 steps, nobody is
waiting), then the consumer runs a whole loop iteration (12 steps). -/
def handoff_round : List Hart :=
  List.replicate 9 Hart.producer ++ List.replicate 12 Hart.consumer

/-- Ten rounds hand over all ten items; then the consumer, which still reads
`producer_done == false` and finds the buffer empty, enters
`cond_wait(&not_empty, &mutex)` (8 steps); then the producer executes
`producer_done = true`. -/
def lost_wakeup_schedule : List Hart :=
  (List.replicate 10 handoff_round).flatten ++ List.replicate 8 Hart.consumer ++ [Hart.producer]

/-- Ten rounds, then the producer executes `producer_done = true`, then the
consumer evaluates its outer test (two reads) and returns. -/
def full_run_schedule : List Hart :=
  (List.replicate 10 handoff_round).flatten ++ [Hart.producer, Hart.consumer, Hart.consumer]

/-- The consumer starts first and enters `cond_wait(&not_empty, &mutex)` on
the empty buffer (8 steps); the producer puts item 1 and signals (10 steps);
the consumer leaves the poll loop, re-takes the mutex and dequeues (12
steps). -/
def wait_first_schedule : List Hart :=
  List.replicate 8 Hart.consumer ++ List.replicate 10 Hart.producer
    ++ List.replicate 12 Hart.consumer

/-- The producer has returned and the consumer is in the poll loop of
`cond_wait(&not_empty, &mutex)` with `to_wake = 0`. -/
def Stuck (s : State) : Prop :=
  s.ppc = ProducerPc.done ∧ s.not_empty.to_wake = 0 ∧
  (s.cpc = ConsumerPc.wait WaitPc.poll_lock ∨ s.cpc = ConsumerPc.wait WaitPc.poll_test ∨
    s.cpc = ConsumerPc.wait WaitPc.miss_unlock)

/-! ## The `waiting` counters of the two condition variables -/

/-- Inside `cond_wait`, `waiting++` (line 59) has been executed and the
matching `waiting--` (line 67) has not yet (`1`), or otherwise (`0`). -/
def WaitPc.counted : WaitPc → Nat
  | WaitPc.lock_cv => 0
  | WaitPc.inc_waiting => 0
  | WaitPc.hit_unlock => 0
  | WaitPc.relock => 0
  | _ => 1

/-- The number of `cond_wait(&not_full, ..)` calls of the producer that have
executed `waiting++` and not yet the matching `waiting--`. -/
def ProducerPc.waiting_on : ProducerPc → Nat
  | ProducerPc.wait w => w.counted
  | _ => 0

/-- The number of `cond_wait(&not_empty, ..)` calls of the consumer that have
executed `waiting++` and not yet the matching `waiting--`. -/
def ConsumerPc.waiting_on : ConsumerPc → Nat
  | ConsumerPc.wait w => w.counted
  | _ => 0

/-- Each `waiting` field counts the task inside `cond_wait` on that
condition variable: only the consumer waits on `not_empty`, only the
producer on `not_full`. -/
structure WaitingInv (s : State) : Prop where
  ne : s.not_empty.waiting = s.cpc.waiting_on
  nf : s.not_full.waiting = s.ppc.waiting_on

/-! ## `print_uint` (lines 96-104) -/

/-- The character `'0' + d` of line 100; `48` is the code of the character
`0`. -/
def digit_char (d : Nat) : Char := Char.ofNat (48 + d)

/-- The `do ... while (val)` loop of lines 99-102 on the 12-byte array
`buf` with index `i`.  A write outside `buf` yields `none`; `fuel` bounds the
number of iterations, and `none` also means the loop has not ended within
the bound.  Returns the array and the index after the loop. -/
def print_uint_fill : Nat → Nat → (Nat → Char) → Nat → Option ((Nat → Char) × Nat)
  | 0, _, _, _ => none
  | fuel + 1, val, buf, i =>
    if i < 12 then
      if val / 10 ≠ 0 then
        print_uint_fill fuel (val / 10)
          (fun k => if k = i then digit_char (val % 10) else buf k) (i + 1)
      else some (fun k => if k = i then digit_char (val % 10) else buf k, i + 1)
    else none

/-- The loop of line 103, `while (i > 0) uart_putc(buf[--i])`: the
characters passed to `uart_putc`, in order.  A read outside `buf` yields
`none`. -/
def print_uint_emit (buf : Nat → Char) : Nat → Option (List Char)
  | 0 => some []
  | i + 1 =>
    if i < 12 then
      match print_uint_emit buf i with
      | none => none
      | some out => some (buf i :: out)
    else none

/-- `print_uint` (lines 96-104): the characters passed to `uart_putc`.
`buf0` is the content of the uninitialised array `buf`. -/
def print_uint (fuel : Nat) (buf0 : Nat → Char) (val : Nat) : Option (List Char) :=
  match print_uint_fill fuel val buf0 0 with
  | none => none
  | some r => print_uint_emit r.1 r.2

/-! ## The whole program: every hart runs `main` (lines 202-217) -/

/-- Program points of `main`: the seven stores of the three initialisation
calls of lines 203-205, then the task selected by `mhartid`. -/
inductive MainPc where
  /-- Line 115, `buf->read_pos = 0` of `buffer_init(&buffer)`. -/
  | init_read_pos
  /-- Line 116, `buf->write_pos = 0`. -/
  | init_write_pos
  /-- Line 117, `buf->count = 0`. -/
  | init_count
  /-- Line 53, `cv->waiting = 0` of `cond_init(&not_empty)`. -/
  | init_not_empty_waiting
  /-- Line 54, `cv->to_wake = 0` of `cond_init(&not_empty)`. -/
  | init_not_empty_to_wake
  /-- Line 53, `cv->waiting = 0` of `cond_init(&not_full)`. -/
  | init_not_full_waiting
  /-- Line 54, `cv->to_wake = 0` of `cond_init(&not_full)`. -/
  | init_not_full_to_wake
  /-- Lines 210-214: inside `producer_task` (hart 0) or `consumer_task`
  (hart 1). -/
  | task
  deriving DecidableEq

/-- One initialisation store of `main` on the shared variables, and the
program point that follows. -/
def main_init_step (pc : MainPc) (s : State) : MainPc × State :=
  match pc with
  | MainPc.init_read_pos =>
    (MainPc.init_write_pos, { s with buffer := { s.buffer with read_pos := 0 } })
  | MainPc.init_write_pos =>
    (MainPc.init_count, { s with buffer := { s.buffer with write_pos := 0 } })
  | MainPc.init_count =>
    (MainPc.init_not_empty_waiting, { s with buffer := { s.buffer with count := 0 } })
  | MainPc.init_not_empty_waiting =>
    (MainPc.init_not_empty_to_wake, { s with not_empty := { s.not_empty with waiting := 0 } })
  | MainPc.init_not_empty_to_wake =>
    (MainPc.init_not_full_waiting, { s with not_empty := { s.not_empty with to_wake := 0 } })
  | MainPc.init_not_full_waiting =>
    (MainPc.init_not_full_to_wake, { s with not_full := { s.not_full with waiting := 0 } })
  | MainPc.init_not_full_to_wake =>
    (MainPc.task, { s with not_full := { s.not_full with to_wake := 0 } })
  | MainPc.task => (MainPc.task, s)

/-- The two harts, each in `main`: the shared variables with the locals of
the two tasks, and where hart 0 and hart 1 are in `main`. -/
structure Program where
  shared : State
  main0 : MainPc
  main1 : MainPc

/-- One step of hart `h` running `main`: an initialisation store, or, once
in its task, a step of `producer_task` (hart 0) or `consumer_task`
(hart 1). -/
def main_step (h : Hart) (p : Program) : Program :=
  match h with
  | Hart.producer =>
    if p.main0 = MainPc.task then { p with shared := producer_task_step p.shared }
    else { p with shared := (main_init_step p.main0 p.shared).2
                  main0 := (main_init_step p.main0 p.shared).1 }
  | Hart.consumer =>
    if p.main1 = MainPc.task then { p with shared := consumer_task_step p.shared }
    else { p with shared := (main_init_step p.main1 p.shared).2
                  main1 := (main_init_step p.main1 p.shared).1 }

/-- Run a schedule of the whole program. -/
def main_run : List Hart → Program → Program
  | [], p => p
  | h :: sched, p => main_run sched (main_step h p)

/-- The state at reset: the static initialisers of lines 142-146 (all
zero), both harts at the first statement of `main`, the task locals as they
are on entry to the tasks. -/
def boot : Program :=
  { shared :=
      { mutex := mutex_t.MUTEX_UNLOCKED
        not_empty := { lock := mutex_t.MUTEX_UNLOCKED, waiting := 0, to_wake := 0 }
        not_full := { lock := mutex_t.MUTEX_UNLOCKED, waiting := 0, to_wake := 0 }
        buffer := { items := fun _ => 0, read_pos := 0, write_pos := 0, count := 0 }
        producer_done := false
        ppc := ProducerPc.lock
        p_i := 0
        p_item := 0
        cpc := ConsumerPc.outer_done
        c_item := 0
        consumed := []
        signals_not_empty := 0
        wakeups_not_empty := 0 }
    main0 := MainPc.init_read_pos
    main1 := MainPc.init_read_pos }

/-- Hart `h` is in its task and between a successful `mutex_lock(&mutex)`
and the matching `mutex_unlock(&mutex)`. -/
def Program.holds_mutex (p : Program) : Hart → Bool
  | Hart.producer => decide (p.main0 = MainPc.task) && p.shared.ppc.holds_mutex
  | Hart.consumer => decide (p.main1 = MainPc.task) && p.shared.cpc.holds_mutex

/-- Hart 0 runs `main` up to the end of its first `buffer_put` (7
initialisation stores, then 5 steps of `producer_task`); then hart 1 starts
`main` and executes `buf->read_pos = 0`. -/
def late_init_schedule : List Hart :=
  List.replicate 12 Hart.producer ++ [Hart.consumer]

/-- After `late_init_schedule`: hart 1 finishes its initialisation (6
stores); hart 0 finishes its first loop iteration (4 steps) and runs its
second (9 steps); hart 1 runs `consumer_task` up to the end of its first
`buffer_get` (8 steps). -/
def late_init_continuation : List Hart :=
  List.replicate 6 Hart.consumer ++ List.replicate 13 Hart.producer
    ++ List.replicate 8 Hart.consumer

/-! ## Machine-word arithmetic -/

theorem inc32_le (x : Nat) : inc32 x ≤ x + 1 := by
  unfold inc32 U32
  omega

theorem inc32_small (x : Nat) (h : x + 1 < 4294967296) : inc32 x = x + 1 := by
  unfold inc32 U32
  omega

theorem dec32_le (x : Nat) (h : 0 < x) : dec32 x + 1 ≤ x := by
  unfold dec32 U32
  omega

theorem dec32_small (x : Nat) (h : 0 < x) (h1 : x < 4294967296) : dec32 x + 1 = x := by
  unfold dec32 U32
  omega

theorem mutex_trylock_fst (m : mutex_t) : ((mutex_trylock m).1 = true) = (m.held = 0) := by
  cases m <;> simp [mutex_trylock, mutex_t.held]

theorem mutex_trylock_snd (m : mutex_t) : (mutex_trylock m).2 = mutex_t.MUTEX_LOCKED := rfl

theorem mutex_held_le (m : mutex_t) : m.held ≤ 1 := by
  cases m <;> simp [mutex_t.held]

/-! ## Mutex -/

/-- C6: `mutex_trylock` returns true exactly when the flag was
`MUTEX_UNLOCKED`, and leaves the flag `MUTEX_LOCKED` either way;
`mutex_unlock` leaves the flag `MUTEX_UNLOCKED`; so a try right after an
unlock succeeds and a second try with no unlock in between fails. -/
theorem C6_trylock_unlock (m : mutex_t) :
    ((mutex_trylock m).1 = true ↔ m = mutex_t.MUTEX_UNLOCKED) ∧
    (mutex_trylock m).2 = mutex_t.MUTEX_LOCKED ∧
    mutex_unlock m = mutex_t.MUTEX_UNLOCKED ∧
    (mutex_trylock (mutex_unlock m)).1 = true ∧
    (mutex_trylock (mutex_trylock m).2).1 = false := by
  cases m <;> simp [mutex_trylock, mutex_unlock]

/-! ## Circular buffer: bounds and frame -/

/-- C3: `buffer_init` yields `count = 0`, and from a state with `count ≤ 5`,
`read_pos < 5` and `write_pos < 5` a gated `buffer_put` and a gated
`buffer_get` each lead to a state with the same three bounds. -/
theorem C3_count_bounds (buf : circular_buffer_t) (item : Nat)
    (hc : buf.count ≤ 5) (hr : buf.read_pos < 5) (hw : buf.write_pos < 5) :
    (buffer_init buf).count = 0 ∧
    (buffer_is_full buf = false →
      (buffer_put buf item).count ≤ 5 ∧ (buffer_put buf item).read_pos < 5 ∧
      (buffer_put buf item).write_pos < 5) ∧
    (buffer_is_empty buf = false →
      (buffer_get buf).2.count ≤ 5 ∧ (buffer_get buf).2.read_pos < 5 ∧
      (buffer_get buf).2.write_pos < 5) := by
  refine ⟨rfl, ?_, ?_⟩
  · intro hf
    simp only [buffer_is_full, BUFFER_SIZE, decide_eq_false_iff_not] at hf
    simp only [buffer_put, buffer_put_count, buffer_put_advance, buffer_put_store, inc32, U32,
      BUFFER_SIZE]
    refine ⟨?_, hr, ?_⟩ <;> omega
  · intro he
    simp only [buffer_is_empty, decide_eq_false_iff_not] at he
    simp only [buffer_get, buffer_get_count, buffer_get_advance, dec32, inc32, U32, BUFFER_SIZE]
    refine ⟨?_, ?_, hw⟩ <;> omega

/-- C3 at a buffer holding two items. -/
theorem C3_count_bounds_witness :
    (buffer_put { items := fun _ => 0, read_pos := 1, write_pos := 3, count := 2 } 7).count ≤ 5 ∧
    (buffer_get { items := fun _ => 0, read_pos := 1, write_pos := 3, count := 2 }).2.count ≤ 5 :=
  ⟨((C3_count_bounds { items := fun _ => 0, read_pos := 1, write_pos := 3, count := 2 } 7
      (by decide) (by decide) (by decide)).2.1 (by decide)).1,
   ((C3_count_bounds { items := fun _ => 0, read_pos := 1, write_pos := 3, count := 2 } 7
      (by decide) (by decide) (by decide)).2.2 (by decide)).1⟩

/-- C10: with `write_pos < 5`, `buffer_put` stores the item in the slot at
`write_pos`, advances `write_pos` to `(write_pos + 1) mod 5`, sets `count` to
`count + 1` modulo `2^32`, and leaves `read_pos` and every other slot as they
were. -/
theorem C10_buffer_put_frame (buf : circular_buffer_t) (item : Nat)
    (hw : buf.write_pos < 5) :
    (buffer_put buf item).items buf.write_pos = item ∧
    (buffer_put buf item).write_pos = (buf.write_pos + 1) % 5 ∧
    (buffer_put buf item).count = (buf.count + 1) % 4294967296 ∧
    (buffer_put buf item).read_pos = buf.read_pos ∧
    ∀ k : Nat, k ≠ buf.write_pos → (buffer_put buf item).items k = buf.items k := by
  refine ⟨?_, ?_, rfl, rfl, ?_⟩
  · simp [buffer_put, buffer_put_count, buffer_put_advance, buffer_put_store]
  · simp only [buffer_put, buffer_put_count, buffer_put_advance, buffer_put_store, inc32, U32,
      BUFFER_SIZE]
    omega
  · intro k hk
    simp [buffer_put, buffer_put_count, buffer_put_advance, buffer_put_store, hk]

/-- C10 at a buffer with `write_pos = 4`: the cursor wraps to `0`. -/
theorem C10_buffer_put_frame_witness :
    (buffer_put { items := fun _ => 0, read_pos := 1, write_pos := 4, count := 3 } 9).items 4 = 9 ∧
    (buffer_put { items := fun _ => 0, read_pos := 1, write_pos := 4, count := 3 } 9).write_pos
      = (4 + 1) % 5 :=
  ⟨(C10_buffer_put_frame { items := fun _ => 0, read_pos := 1, write_pos := 4, count := 3 } 9
      (by decide)).1,
   (C10_buffer_put_frame { items := fun _ => 0, read_pos := 1, write_pos := 4, count := 3 } 9
      (by decide)).2.1⟩

/-! ## Condition variable: sequential facts -/

/-- C8: with `waiting = 0` and the internal lock free, `cond_signal` returns,
its `mutex_lock` succeeding on the first try, and `to_wake`, `waiting` and
the internal lock are as before the call (the lock unlocked). -/
theorem C8_signal_without_waiter (cv : cond_t) (hw : cv.waiting = 0)
    (hl : cv.lock = mutex_t.MUTEX_UNLOCKED) :
    (mutex_trylock cv.lock).1 = true ∧
    mutex_lock 1 cv.lock = some mutex_t.MUTEX_LOCKED ∧
    ∀ fuel : Nat, ∃ cv1 : cond_t, cond_signal (fuel + 1) cv = some cv1 ∧
      cv1.to_wake = cv.to_wake ∧ cv1.waiting = cv.waiting ∧
      cv1.lock = mutex_t.MUTEX_UNLOCKED := by
  obtain ⟨l, w, t⟩ := cv
  simp only at hw hl
  subst hw hl
  refine ⟨by simp [mutex_trylock], by simp [mutex_lock, mutex_trylock], ?_⟩
  intro fuel
  simp [cond_signal, mutex_lock, mutex_trylock, cond_signal_body, mutex_unlock]

/-- C8 at a condition variable with a stale `to_wake = 3`. -/
theorem C8_signal_without_waiter_witness :
    ∃ cv1 : cond_t,
      cond_signal 1 { lock := mutex_t.MUTEX_UNLOCKED, waiting := 0, to_wake := 3 } = some cv1 ∧
      cv1.to_wake = 3 ∧ cv1.waiting = 0 ∧ cv1.lock = mutex_t.MUTEX_UNLOCKED :=
  (C8_signal_without_waiter { lock := mutex_t.MUTEX_UNLOCKED, waiting := 0, to_wake := 3 }
    rfl rfl).2.2 0

theorem cond_signal_steps_eq (cv : cond_t) (hl : cv.lock = mutex_t.MUTEX_UNLOCKED) :
    cond_signal_steps 4 SigPc.lock_cv cv = cond_signal 1 cv := by
  obtain ⟨l, w, t⟩ := cv
  dsimp only at hl
  subst hl
  by_cases hw : w > 0 <;>
    simp [cond_signal_steps, cond_signal_step, cond_signal, cond_signal_body, mutex_lock,
      mutex_trylock, mutex_unlock, hw]

/-- C7 as stated fails.  At `waiting = to_wake = 1` the guarded increment of
`cond_signal` yields `to_wake = 2 > waiting = 1`; that state arises in the
two-task program when the producer signals twice while the consumer is still
polling.  At `waiting = 2^32 - 1` the increment `waiting++` wraps to `0`. -/
theorem C7_counterexample :
    ((cond_t.mk mutex_t.MUTEX_LOCKED 1 1).to_wake ≤ (cond_t.mk mutex_t.MUTEX_LOCKED 1 1).waiting ∧
      ¬ (cond_signal_body (cond_t.mk mutex_t.MUTEX_LOCKED 1 1)).to_wake
        ≤ (cond_signal_body (cond_t.mk mutex_t.MUTEX_LOCKED 1 1)).waiting) ∧
    ((run (List.replicate 8 Hart.consumer ++ List.replicate 20 Hart.producer) init).not_empty
        = cond_t.mk mutex_t.MUTEX_UNLOCKED 1 2) ∧
    ((cond_t.mk mutex_t.MUTEX_LOCKED 4294967295 1).to_wake
        ≤ (cond_t.mk mutex_t.MUTEX_LOCKED 4294967295 1).waiting ∧
      ¬ (cond_wait_enter (cond_t.mk mutex_t.MUTEX_LOCKED 4294967295 1)).to_wake
        ≤ (cond_wait_enter (cond_t.mk mutex_t.MUTEX_LOCKED 4294967295 1)).waiting) := by
  refine ⟨by decide, by decide, by decide⟩

/-- C7, amended: `to_wake ≤ waiting` holds after `cond_init`; from a state
with 32-bit counters and `to_wake ≤ waiting`, `waiting++` keeps it exactly
when `waiting < 2^32 - 1` or `to_wake = 0`, the `to_wake--`/`waiting--` pair
of the poll loop keeps it, and the guarded `to_wake++` of `cond_signal` keeps
it exactly when `to_wake < waiting`, `waiting = 0` or `waiting = 2^32 - 1`;
at `to_wake = waiting > 0` it sets `to_wake` to `(waiting + 1) mod 2^32`. -/
theorem C7_to_wake_le_waiting (cv : cond_t) (hw : cv.waiting < 4294967296)
    (ht : cv.to_wake < 4294967296) (h : cv.to_wake ≤ cv.waiting) :
    (cond_init cv).to_wake ≤ (cond_init cv).waiting ∧
    ((cond_wait_enter cv).to_wake ≤ (cond_wait_enter cv).waiting ↔
      (cv.waiting < 4294967295 ∨ cv.to_wake = 0)) ∧
    (cond_wait_consume cv).2.to_wake ≤ (cond_wait_consume cv).2.waiting ∧
    ((cond_signal_body cv).to_wake ≤ (cond_signal_body cv).waiting ↔
      (cv.to_wake < cv.waiting ∨ cv.waiting = 0 ∨ cv.waiting = 4294967295)) ∧
    (cv.to_wake = cv.waiting → 0 < cv.waiting →
      (cond_signal_body cv).to_wake = (cv.waiting + 1) % 4294967296 ∧
      (cond_signal_body cv).waiting = cv.waiting) := by
  obtain ⟨l, w, t⟩ := cv
  simp only [cond_init, cond_wait_enter, cond_wait_consume, cond_signal_body, inc32, dec32,
    U32] at *
  refine ⟨le_refl _, ?_, ?_, ?_, ?_⟩
  · omega
  · split
    · rename_i hpos
      dsimp only
      omega
    · exact h
  · by_cases hpos : w > 0
    · rw [if_pos hpos]
      dsimp only
      omega
    · rw [if_neg hpos]
      dsimp only
      omega
  · intro h1 h2
    rw [if_pos h2]
    dsimp only
    subst h1
    exact ⟨rfl, rfl⟩

/-- C7 (amended) at `waiting = 2`, `to_wake = 1`. -/
theorem C7_to_wake_le_waiting_witness :
    (cond_wait_consume (cond_t.mk mutex_t.MUTEX_LOCKED 2 1)).2.to_wake
      ≤ (cond_wait_consume (cond_t.mk mutex_t.MUTEX_LOCKED 2 1)).2.waiting ∧
    (cond_signal_body (cond_t.mk mutex_t.MUTEX_LOCKED 2 1)).to_wake
      ≤ (cond_signal_body (cond_t.mk mutex_t.MUTEX_LOCKED 2 1)).waiting :=
  ⟨(C7_to_wake_le_waiting (cond_t.mk mutex_t.MUTEX_LOCKED 2 1)
      (by decide) (by decide) (by decide)).2.2.1,
   (C7_to_wake_le_waiting (cond_t.mk mutex_t.MUTEX_LOCKED 2 1)
      (by decide) (by decide) (by decide)).2.2.2.1.mpr (Or.inl (by decide))⟩

/-! ## Circular buffer: the ring is a FIFO queue -/

theorem ringInv_start (buf : circular_buffer_t) : RingInv (gated_start buf) := by
  simp [RingInv, gated_start, buffer_init]

theorem ringInv_gated_call (r r1 : BufferRun) (c : BufferCall) (h : RingInv r)
    (hc : gated_call r c = some r1) : RingInv r1 := by
  obtain ⟨hr, hcnt, hw, hbal, hget, hitems⟩ := h
  cases c with
  | put item =>
    simp only [gated_call, buffer_is_full, BUFFER_SIZE] at hc
    split at hc
    · exact absurd hc (by simp)
    · rename_i hfull
      simp only [decide_eq_true_eq] at hfull
      simp only [Option.some.injEq] at hc
      subst hc
      have hlt : r.buf.count < 5 := by omega
      simp only [RingInv, buffer_put, buffer_put_count, buffer_put_advance, buffer_put_store,
        inc32, U32, BUFFER_SIZE, List.length_append, List.length_singleton]
      refine ⟨hr, by omega, by omega, by omega, ?_, ?_⟩
      · rw [List.take_append_of_le_length (by omega)]
        exact hget
      · intro j hj
        have hj1 : j < r.buf.count + 1 := by omega
        by_cases hjc : j = r.buf.count
        · subst hjc
          rw [if_pos (by omega)]
          rw [List.getElem?_append_right (by omega)]
          have : r.gets.length + r.buf.count - r.puts.length = 0 := by omega
          rw [this]
          rfl
        · have hj2 : j < r.buf.count := by omega
          rw [if_neg (by omega)]
          rw [List.getElem?_append_left (by omega)]
          exact hitems j hj2
  | get =>
    simp only [gated_call, buffer_is_empty] at hc
    split at hc
    · exact absurd hc (by simp)
    · rename_i hempty
      simp only [decide_eq_true_eq] at hempty
      simp only [Option.some.injEq] at hc
      subst hc
      have hpos : 0 < r.buf.count := by omega
      have h0 := hitems 0 hpos
      simp only [Nat.add_zero] at h0
      have hrp : r.buf.read_pos % 5 = r.buf.read_pos := Nat.mod_eq_of_lt hr
      rw [hrp] at h0
      simp only [RingInv, buffer_get, buffer_get_load, buffer_get_count, buffer_get_advance,
        inc32, dec32, U32, BUFFER_SIZE, List.length_append, List.length_singleton]
      refine ⟨by omega, by omega, by omega, by omega, ?_, ?_⟩
      · have hlen : r.gets.length < r.puts.length := by omega
        rw [List.take_succ, h0, ← hget]
        rfl
      · intro j hj
        have hj2 : j + 1 < r.buf.count := by omega
        have h1 := hitems (j + 1) hj2
        have e1 : r.gets.length + 1 + j = r.gets.length + (j + 1) := by omega
        have e2 : ((r.buf.read_pos + 1) % 4294967296 % 5 + j) % 5
            = (r.buf.read_pos + (j + 1)) % 5 := by omega
        rw [e1, e2]
        exact h1

theorem ringInv_gated_calls (calls : List BufferCall) (r r1 : BufferRun) (h : RingInv r)
    (hc : gated_calls r calls = some r1) : RingInv r1 := by
  induction calls generalizing r with
  | nil =>
    simp only [gated_calls, Option.some.injEq] at hc
    exact hc ▸ h
  | cons c cs ih =>
    simp only [gated_calls] at hc
    cases hcall : gated_call r c with
    | none => rw [hcall] at hc; exact absurd hc (by simp)
    | some r2 =>
      rw [hcall] at hc
      exact ih r2 (ringInv_gated_call r r2 c h hcall) hc

theorem gated_calls_log (calls : List BufferCall) (r r1 : BufferRun)
    (hc : gated_calls r calls = some r1) :
    r1.puts = r.puts ++ put_items calls ∧ r1.gets.length = r.gets.length + get_calls calls := by
  induction calls generalizing r with
  | nil =>
    simp only [gated_calls, Option.some.injEq] at hc
    subst hc
    simp [put_items, get_calls]
  | cons c cs ih =>
    simp only [gated_calls] at hc
    cases hcall : gated_call r c with
    | none => rw [hcall] at hc; exact absurd hc (by simp)
    | some r2 =>
      rw [hcall] at hc
      obtain ⟨h1, h2⟩ := ih r2 hc
      cases c with
      | put item =>
        simp only [gated_call] at hcall
        split at hcall
        · exact absurd hcall (by simp)
        · simp only [Option.some.injEq] at hcall
          subst hcall
          simp only [put_items, get_calls] at *
          exact ⟨by rw [h1]; simp, h2⟩
      | get =>
        simp only [gated_call] at hcall
        split at hcall
        · exact absurd hcall (by simp)
        · simp only [Option.some.injEq] at hcall
          subst hcall
          simp only [put_items, get_calls, List.length_append, List.length_singleton] at *
          exact ⟨h1, by omega⟩

/-- C2: for every list of calls made after `buffer_init` in which each put
finds `buffer_is_full` false and each get finds `buffer_is_empty` false, the
items returned by the gets are, in order, the first items passed to the puts
(the k-th get returns the k-th put), and `count` is the number of puts minus
the number of gets. -/
theorem C2_fifo (buf : circular_buffer_t) (calls : List BufferCall) (r : BufferRun)
    (h : gated_calls (gated_start buf) calls = some r) :
    r.puts = put_items calls ∧ r.gets.length = get_calls calls ∧
    r.gets = (put_items calls).take (get_calls calls) ∧
    (∀ k : Nat, k < get_calls calls → r.gets[k]? = (put_items calls)[k]?) ∧
    r.buf.count = (put_items calls).length - get_calls calls := by
  obtain ⟨hp, hg⟩ := gated_calls_log calls (gated_start buf) r h
  simp only [gated_start, List.nil_append, List.length_nil, Nat.zero_add] at hp hg
  obtain ⟨_, _, _, hbal, hget, _⟩ :=
    ringInv_gated_calls calls (gated_start buf) r (ringInv_start buf) h
  rw [hp, hg] at hget
  rw [hp, hg] at hbal
  refine ⟨hp, hg, hget, ?_, by omega⟩
  intro k hk
  rw [hget, List.getElem?_take_of_lt hk]

/-- C2 on the calls put 7, put 8, get, put 9, get: the gets return 7 then 8
and one item is left. -/
theorem C2_fifo_witness :
    ∃ r : BufferRun,
      gated_calls (gated_start { items := fun _ => 0, read_pos := 3, write_pos := 1, count := 4 })
        [BufferCall.put 7, BufferCall.put 8, BufferCall.get, BufferCall.put 9, BufferCall.get]
        = some r ∧
      r.gets = [7, 8] ∧ r.buf.count = 1 :=
  ⟨_, rfl,
    (C2_fifo { items := fun _ => 0, read_pos := 3, write_pos := 1, count := 4 }
      [BufferCall.put 7, BufferCall.put 8, BufferCall.get, BufferCall.put 9, BufferCall.get]
      _ rfl).2.2.1,
    (C2_fifo { items := fun _ => 0, read_pos := 3, write_pos := 1, count := 4 }
      [BufferCall.put 7, BufferCall.put 8, BufferCall.get, BufferCall.put 9, BufferCall.get]
      _ rfl).2.2.2.2⟩

/-! ## The interleaved tasks: mutual exclusion -/

theorem run_append (a b : List Hart) (s : State) : run (a ++ b) s = run b (run a s) := by
  induction a generalizing s with
  | nil => rfl
  | cons h t ih => exact ih (step h s)

theorem mutexInv_init : MutexInv init := by
  constructor <;> decide

theorem mutexInv_producer (s : State) (h : MutexInv s) : MutexInv (producer_task_step s) := by
  obtain ⟨mutex, ne, nf, buf, pd, ppc, i, item, cpc, citem, consumed, sig, wk⟩ := s
  obtain ⟨h1, h2⟩ := h
  cases ppc <;> (try (rename_i w; cases w)) <;>
    simp only [producer_task_step, cond_wait_step, cond_signal_step, ProducerPc.after_wait,
      ProducerPc.after_signal] <;>
    (try split_ifs) <;>
    constructor <;>
    simp_all [mutex_trylock, mutex_unlock, ProducerPc.holds_mutex, WaitPc.holds_mutex]

theorem mutexInv_consumer (s : State) (h : MutexInv s) : MutexInv (consumer_task_step s) := by
  obtain ⟨mutex, ne, nf, buf, pd, ppc, i, item, cpc, citem, consumed, sig, wk⟩ := s
  obtain ⟨h1, h2⟩ := h
  cases cpc <;> (try (rename_i w; cases w)) <;>
    simp only [consumer_task_step, cond_wait_step, cond_signal_step, ConsumerPc.after_wait,
      ConsumerPc.after_signal] <;>
    (try split_ifs) <;>
    constructor <;>
    simp_all [mutex_trylock, mutex_unlock, ConsumerPc.holds_mutex, WaitPc.holds_mutex]

theorem mutexInv_run (sched : List Hart) (s : State) (h : MutexInv s) :
    MutexInv (run sched s) := by
  induction sched generalizing s with
  | nil => exact h
  | cons a t ih =>
    cases a
    · exact ih _ (mutexInv_producer s h)
    · exact ih _ (mutexInv_consumer s h)

/-! ## The interleaved tasks: the internal lock of `not_empty` -/

theorem notEmptyInv_init : NotEmptyInv init := by
  constructor <;> decide

theorem wake_due_le (pc : ConsumerPc) : pc.wake_due ≤ pc.in_not_empty.toNat := by
  cases pc <;> (try (rename_i w; cases w)) <;> decide

theorem notEmptyInv_producer (s : State) (h : NotEmptyInv s) :
    NotEmptyInv (producer_task_step s) := by
  obtain ⟨mutex, ne, nf, buf, pd, ppc, i, item, cpc, citem, consumed, sig, wk⟩ := s
  obtain ⟨nel, new, net⟩ := ne
  obtain ⟨h1, h2, h3⟩ := h
  dsimp only at h1 h2 h3
  have hi := inc32_le net
  have hl := mutex_held_le nel
  have hb := Bool.toNat_le cpc.in_not_empty
  have hw := wake_due_le cpc
  cases ppc <;> (try (rename_i w; cases w)) <;>
    simp only [producer_task_step, cond_wait_step, cond_signal_step, ProducerPc.after_wait,
      ProducerPc.after_signal] <;>
    (try split_ifs) <;>
    constructor <;>
    dsimp only <;>
    simp only [mutex_trylock_fst, mutex_trylock_snd, mutex_unlock, mutex_t.held,
      ProducerPc.in_not_empty, SigPc.holds_cv, ProducerPc.signal_pending, Bool.toNat_true,
      Bool.toNat_false] at * <;>
    omega

theorem notEmptyInv_consumer (s : State) (h : NotEmptyInv s) :
    NotEmptyInv (consumer_task_step s) := by
  obtain ⟨mutex, ne, nf, buf, pd, ppc, i, item, cpc, citem, consumed, sig, wk⟩ := s
  obtain ⟨nel, new, net⟩ := ne
  obtain ⟨h1, h2, h3⟩ := h
  dsimp only at h1 h2 h3
  have hd := dec32_le net
  have hl := mutex_held_le nel
  have hb := Bool.toNat_le ppc.in_not_empty
  cases cpc <;> (try (rename_i w; cases w)) <;>
    simp only [consumer_task_step, cond_wait_step, cond_signal_step, ConsumerPc.after_wait,
      ConsumerPc.after_signal, reduceCtorEq, if_true, if_false] <;>
    (try split_ifs) <;>
    constructor <;>
    dsimp only <;>
    simp only [mutex_trylock_fst, mutex_trylock_snd, mutex_unlock, mutex_t.held,
      ConsumerPc.in_not_empty, WaitPc.holds_cv, ConsumerPc.wake_pending, ConsumerPc.wake_due,
      cond_wait_enter, Bool.toNat_true, Bool.toNat_false] at * <;>
    omega

/-! ## The interleaved tasks: the data in the buffer -/

theorem dataInv_init : DataInv init := by
  constructor <;>
    first
      | decide
      | (intro k hk1 hk2; simp [init, ProducerPc.store_pending] at hk2)

theorem producer_pending_le (pc : ProducerPc) :
    pc.store_pending ≤ pc.pos_pending ∧ pc.pos_pending ≤ pc.count_pending ∧
    pc.count_pending ≤ pc.item_ahead ∧ pc.item_ahead ≤ pc.in_loop ∧ pc.in_loop ≤ 1 ∧
    pc.has_set_done + pc.in_loop ≤ 1 := by
  cases pc <;> (try (rename_i w; cases w)) <;> decide

theorem consumer_flags_le (pc : ConsumerPc) :
    pc.has_left ≤ pc.saw_done ∧ pc.saw_done ≤ 1 ∧ pc.pos_done ≤ pc.getting ∧
    pc.getting ≤ 1 ∧ pc.getting + pc.saw_done ≤ 1 := by
  cases pc <;> (try (rename_i w; cases w)) <;> decide

theorem dataInv_producer (s : State) (h : DataInv s) : DataInv (producer_task_step s) := by
  obtain ⟨mutex, ne, nf, buf, pd, ppc, i, item, cpc, citem, consumed, sig, wk⟩ := s
  obtain ⟨items, rp, wp, cnt⟩ := buf
  obtain ⟨h1, h2, h3, h4, h5, h6, h7, h8, h9, h10, h11, h12, h13, h14⟩ := h
  dsimp only at h1 h2 h3 h4 h5 h6 h7 h8 h9 h10 h11 h12 h13 h14
  have hp := producer_pending_le ppc
  have hc := consumer_flags_le cpc
  have e1 := inc32_small item
  have e2 := inc32_small wp
  have e3 := inc32_small cnt
  cases ppc <;> (try (rename_i w; cases w)) <;>
    simp only [ProducerPc.item_ahead, ProducerPc.count_pending, ProducerPc.pos_pending,
      ProducerPc.store_pending, ProducerPc.in_loop, ProducerPc.has_set_done]
      at h1 h2 h3 h4 h5 h6 h8 h10 hp <;>
    simp only [producer_task_step, cond_wait_step, cond_signal_step, ProducerPc.after_wait,
      ProducerPc.after_signal, buffer_is_full, buffer_put_store, buffer_put_advance,
      buffer_put_count, BUFFER_SIZE, decide_eq_true_eq] <;>
    (try split_ifs) <;>
    constructor <;>
    dsimp only <;>
    (try simp only [ProducerPc.item_ahead, ProducerPc.count_pending, ProducerPc.pos_pending,
      ProducerPc.store_pending, ProducerPc.in_loop, ProducerPc.has_set_done, Bool.toNat_true,
      Bool.toNat_false]) <;>
    first
      | assumption
      | omega
      | (intro k hk1 hk2; exact h10 k (by omega) (by omega))
      | (intro k hk1 hk2
         split
         · omega
         · exact h10 k hk1 (by omega))

theorem dataInv_consumer (s : State) (h : DataInv s) : DataInv (consumer_task_step s) := by
  obtain ⟨mutex, ne, nf, buf, pd, ppc, i, item, cpc, citem, consumed, sig, wk⟩ := s
  obtain ⟨items, rp, wp, cnt⟩ := buf
  obtain ⟨h1, h2, h3, h4, h5, h6, h7, h8, h9, h10, h11, h12, h13, h14⟩ := h
  dsimp only at h1 h2 h3 h4 h5 h6 h7 h8 h9 h10 h11 h12 h13 h14
  have hp := producer_pending_le ppc
  have hc := consumer_flags_le cpc
  have e1 := inc32_small rp
  have e2 := dec32_small cnt
  cases cpc <;> (try (rename_i w; cases w)) <;>
    simp only [ConsumerPc.getting, ConsumerPc.loaded, ConsumerPc.pos_done, ConsumerPc.saw_done,
      ConsumerPc.has_left, Nat.add_zero] at h7 h9 h12 h13 h14 hc <;>
    simp only [consumer_task_step, cond_wait_step, cond_signal_step, ConsumerPc.after_wait,
      ConsumerPc.after_signal, buffer_is_empty, buffer_get_load, buffer_get_advance,
      buffer_get_count, BUFFER_SIZE, decide_eq_true_eq, Bool.not_eq_true',
      decide_eq_false_iff_not, reduceCtorEq, if_true, if_false] <;>
    (try split_ifs) <;>
    constructor <;>
    dsimp only <;>
    (try simp only [ConsumerPc.getting, ConsumerPc.loaded, ConsumerPc.pos_done,
      ConsumerPc.saw_done, ConsumerPc.has_left, Nat.add_zero, List.length_append,
      List.length_singleton]) <;>
    first
      | omega
      | (with_reducible assumption)
      | (intro k hk1 hk2; exact h10 k (by omega) (by omega))
      | (intro hf; exact Bool.noConfusion hf)
      | (intro _; rw [h9]; exact h10 _ (Nat.le_refl _) (by omega))
      | (cases pd <;> simp at * <;> omega)
      | (rw [List.range'_concat, ← h11, h12 trivial, Nat.one_mul, Nat.add_comm])

theorem dataInv_run (sched : List Hart) (s : State) (h : DataInv s) :
    DataInv (run sched s) := by
  induction sched generalizing s with
  | nil => exact h
  | cons a t ih =>
    cases a
    · exact ih _ (dataInv_producer s h)
    · exact ih _ (dataInv_consumer s h)

theorem notEmptyInv_run (sched : List Hart) (s : State) (h : NotEmptyInv s) :
    NotEmptyInv (run sched s) := by
  induction sched generalizing s with
  | nil => exact h
  | cons a t ih =>
    cases a
    · exact ih _ (notEmptyInv_producer s h)
    · exact ih _ (notEmptyInv_consumer s h)

theorem mutexInv_of_reachable (s : State) (h : Reachable s) : MutexInv s := by
  obtain ⟨sched, rfl⟩ := h
  exact mutexInv_run sched init mutexInv_init

theorem dataInv_of_reachable (s : State) (h : Reachable s) : DataInv s := by
  obtain ⟨sched, rfl⟩ := h
  exact dataInv_run sched init dataInv_init

theorem notEmptyInv_of_reachable (s : State) (h : Reachable s) : NotEmptyInv s := by
  obtain ⟨sched, rfl⟩ := h
  exact notEmptyInv_run sched init notEmptyInv_init

theorem producer_item_le (s : State) (h : DataInv s) : s.p_item ≤ 10 := by
  have hp := producer_pending_le s.ppc
  have h1 := h.i_item
  have h2 := h.i_hi
  omega

theorem range'_one_isPrefix (g : Nat) (hg : g ≤ 10) :
    List.range' 1 g <+: [1, 2, 3, 4, 5, 6, 7, 8, 9, 10] := by
  refine ⟨List.range' (1 + g) (10 - g), ?_⟩
  have h := List.range'_append 1 g (10 - g) 1
  rw [Nat.one_mul] at h
  rw [h]
  have e : 10 - g + g = 10 := by omega
  rw [e]
  rfl

/-! ## The interleaved tasks: the claims -/

/-- C1: in every reachable state of the two interleaved tasks the values the
consumer has obtained from `buffer_get` form an initial segment of
`1, 2, ..., 10`; and once both tasks have left their loops the values are
exactly `1, 2, ..., 10` and `buffer.count = 0`. -/
theorem C1_handoff_in_order (s : State) (h : Reachable s) :
    s.consumed <+: [1, 2, 3, 4, 5, 6, 7, 8, 9, 10] ∧
    (s.ppc.left_loop = true → s.cpc.left_loop = true →
      s.consumed = [1, 2, 3, 4, 5, 6, 7, 8, 9, 10] ∧ s.buffer.count = 0) := by
  have hd := dataInv_of_reachable s h
  have hi := producer_item_le s hd
  have hp := producer_pending_le s.ppc
  have hc := consumer_flags_le s.cpc
  have h1 := hd.i_item
  have h3 := hd.i_lo
  have h4 := hd.done_flag
  have h5 := hd.count_eq
  have h11 := hd.consumed_eq
  have h13 := hd.saw_done
  have h14 := hd.final
  have hb := Bool.toNat_le s.producer_done
  constructor
  · rw [h11]
    exact range'_one_isPrefix _ (by omega)
  · intro _ hcl
    have hl : s.cpc.has_left = 1 := by
      cases hpc : s.cpc <;> simp [hpc, ConsumerPc.left_loop] at hcl
      rfl
    have hlen : s.consumed.length = 10 := by omega
    rw [hlen] at h11
    exact ⟨h11, by omega⟩

set_option maxRecDepth 1000000 in
/-- C1 at the end of `full_run_schedule`, where both tasks have returned:
the consumer has obtained `1, ..., 10` and the buffer is empty. -/
theorem C1_handoff_in_order_witness :
    (run full_run_schedule init).consumed = [1, 2, 3, 4, 5, 6, 7, 8, 9, 10] ∧
    (run full_run_schedule init).buffer.count = 0 :=
  (C1_handoff_in_order (run full_run_schedule init) ⟨full_run_schedule, rfl⟩).2
    (by decide) (by decide)

/-- C4: in no reachable state of the two interleaved tasks are the producer
and the consumer both between a successful `mutex_trylock(&mutex)` and
their matching `mutex_unlock(&mutex)`; and while one of them is, the flag is
`MUTEX_LOCKED`, so a `mutex_trylock` made then returns false. -/
theorem C4_mutual_exclusion (s : State) (h : Reachable s) :
    ¬ (s.ppc.holds_mutex = true ∧ s.cpc.holds_mutex = true) ∧
    (s.ppc.holds_mutex = true ∨ s.cpc.holds_mutex = true →
      s.mutex = mutex_t.MUTEX_LOCKED ∧ (mutex_trylock s.mutex).1 = false) := by
  obtain ⟨h1, h2⟩ := mutexInv_of_reachable s h
  constructor
  · intro ⟨ha, hb⟩
    rw [ha, hb] at h1
    exact absurd h1 (by decide)
  · intro hor
    have hl : s.mutex = mutex_t.MUTEX_LOCKED := by
      rcases hor with ha | hb
      · rw [ha] at h2
        simpa using h2
      · rw [hb] at h2
        simpa using h2
    exact ⟨hl, by rw [hl]; rfl⟩

/-- C4 at the state where the producer has taken the mutex and the consumer
has tried: the consumer is not a holder and its next try fails. -/
theorem C4_mutual_exclusion_witness :
    (run [Hart.producer, Hart.consumer, Hart.consumer] init).ppc.holds_mutex = true ∧
    (run [Hart.producer, Hart.consumer, Hart.consumer] init).cpc.holds_mutex = false ∧
    (mutex_trylock (run [Hart.producer, Hart.consumer, Hart.consumer] init).mutex).1 = false :=
  ⟨rfl, rfl,
    ((C4_mutual_exclusion _ ⟨[Hart.producer, Hart.consumer, Hart.consumer], rfl⟩).2
      (Or.inl rfl)).2⟩

theorem cv_events_hist (es : List CvEvent) (t : CvTrace)
    (h : t.wakeups + t.cv.to_wake ≤ t.signals) :
    (cv_events t es).wakeups + (cv_events t es).cv.to_wake ≤ (cv_events t es).signals := by
  induction es generalizing t with
  | nil => exact h
  | cons e es ih =>
    apply ih
    obtain ⟨⟨l, w, k⟩, sg, wk⟩ := t
    dsimp only at h
    have hi := inc32_le k
    have hd := dec32_le k
    cases e
    · exact h
    · simp only [cv_event, cond_wait_consume]
      split
      · rename_i hpos
        dsimp only at hpos ⊢
        simp only [if_true]
        omega
      · simp only [Bool.false_eq_true, if_false]
        exact h
    · simp only [cv_event, cond_signal_body]
      split
      · dsimp only
        omega
      · dsimp only
        omega

/-- C9: in every run of the critical sections of a condition variable from
`waiting = to_wake = 0`, the `cond_wait` calls that have left the poll loop
are at most the `cond_signal` calls made; and in every reachable state of
the two tasks the consumer has left the poll loop of
`cond_wait(&not_empty, ..)` at most as often as the producer has called
`cond_signal(&not_empty)`, so never before the first such call, and the
first value it dequeues is 1. -/
theorem C9_wakeup_needs_signal :
    (∀ events : List CvEvent,
      (cv_events cv_start events).wakeups ≤ (cv_events cv_start events).signals) ∧
    (∀ s : State, Reachable s →
      s.wakeups_not_empty ≤ s.signals_not_empty ∧
      (s.signals_not_empty = 0 →
        s.wakeups_not_empty = 0 ∧ s.cpc ≠ ConsumerPc.wait WaitPc.dec_to_wake ∧
        s.cpc ≠ ConsumerPc.wait WaitPc.dec_waiting ∧
        s.cpc ≠ ConsumerPc.wait WaitPc.hit_unlock) ∧
      (∀ v : Nat, s.consumed.head? = some v → v = 1)) := by
  constructor
  · intro events
    have h := cv_events_hist events cv_start (by decide)
    omega
  · intro s hs
    obtain ⟨_, h2, h3⟩ := notEmptyInv_of_reachable s hs
    have hd := (dataInv_of_reachable s hs).consumed_eq
    refine ⟨by omega, ?_, ?_⟩
    · intro h0
      refine ⟨by omega, ?_, ?_, ?_⟩ <;>
      · intro hc
        rw [hc] at h2 h3
        simp only [ConsumerPc.wake_due, ConsumerPc.wake_pending] at h2 h3
        omega
    · intro v hv
      rw [hd] at hv
      cases hlen : s.consumed.length with
      | zero => rw [hlen] at hv; simp at hv
      | succ n =>
        rw [hlen, List.range'_succ] at hv
        simp only [List.head?_cons, Option.some.injEq] at hv
        exact hv.symm

set_option maxRecDepth 1000000 in
/-- C9 on `wait_first_schedule`: the consumer waited first, left the poll
loop once after the one signal, and dequeued 1. -/
theorem C9_wakeup_needs_signal_witness :
    (run wait_first_schedule init).wakeups_not_empty = 1 ∧
    (run wait_first_schedule init).signals_not_empty = 1 ∧
    (run wait_first_schedule init).consumed = [1] ∧
    (run wait_first_schedule init).wakeups_not_empty
      ≤ (run wait_first_schedule init).signals_not_empty :=
  ⟨by decide, by decide, by decide,
    (C9_wakeup_needs_signal.2 (run wait_first_schedule init) ⟨wait_first_schedule, rfl⟩).1⟩

/-! ## The interleaved tasks: the lost wakeup -/

theorem stuck_step (a : Hart) (s : State) (h : Stuck s) : Stuck (step a s) := by
  obtain ⟨mutex, ne, nf, buf, pd, ppc, i, item, cpc, citem, consumed, sig, wk⟩ := s
  obtain ⟨hp, ht, hc⟩ := h
  dsimp only at hp ht hc
  subst hp
  cases a
  · exact ⟨rfl, ht, hc⟩
  · obtain ⟨l, w, k⟩ := ne
    dsimp only at ht
    subst ht
    rcases hc with hc | hc | hc <;> subst hc <;>
      simp only [step, consumer_task_step, cond_wait_step, ConsumerPc.after_wait, Stuck,
        reduceCtorEq, if_false] <;>
      (try split_ifs) <;>
      first
        | omega
        | simp

theorem stuck_run (sched : List Hart) (s : State) (h : Stuck s) : Stuck (run sched s) := by
  induction sched generalizing s with
  | nil => exact h
  | cons a t ih => exact ih _ (stuck_step a s h)

set_option maxRecDepth 1000000 in
theorem stuck_lost_wakeup : Stuck (run lost_wakeup_schedule init) := by
  unfold Stuck
  decide

set_option maxRecDepth 1000000 in
/-- C5 fails on `lost_wakeup_schedule`: the state it reaches has all ten
items consumed, the buffer empty and `producer_done` true, yet in every
state reachable from it the consumer is still in the poll loop of
`cond_wait(&not_empty, &mutex)` and has not left its outer loop. -/
theorem C5_consumer_polls_forever :
    Reachable (run lost_wakeup_schedule init) ∧
    (run lost_wakeup_schedule init).consumed = [1, 2, 3, 4, 5, 6, 7, 8, 9, 10] ∧
    (run lost_wakeup_schedule init).buffer.count = 0 ∧
    (run lost_wakeup_schedule init).producer_done = true ∧
    ∀ sched : List Hart,
      (run sched (run lost_wakeup_schedule init)).cpc.polling = true ∧
      (run sched (run lost_wakeup_schedule init)).cpc.left_loop = false := by
  refine ⟨⟨lost_wakeup_schedule, rfl⟩, by decide, by decide, by decide, ?_⟩
  intro sched
  obtain ⟨_, _, hc⟩ := stuck_run sched _ stuck_lost_wakeup
  rcases hc with hc | hc | hc <;> rw [hc] <;> exact ⟨rfl, rfl⟩

/-! ## Circular buffer: `buffer_get`, misuse, cursors -/

/-- C11: with `read_pos < 5`, `buffer_get` returns the slot at `read_pos` as
it was before the call, advances `read_pos` to `(read_pos + 1) mod 5`, sets
`count` to `count - 1` modulo `2^32`, and leaves `write_pos` and every slot
as they were; and `buffer_get` right after `buffer_put x` on a freshly
initialised buffer returns `x` and leaves the buffer empty. -/
theorem C11_buffer_get_frame (buf : circular_buffer_t) (hr : buf.read_pos < 5) :
    (buffer_get buf).1 = buf.items buf.read_pos ∧
    (buffer_get buf).2.read_pos = (buf.read_pos + 1) % 5 ∧
    (buffer_get buf).2.count = (buf.count + 4294967296 - 1) % 4294967296 ∧
    (buffer_get buf).2.write_pos = buf.write_pos ∧
    (∀ k : Nat, (buffer_get buf).2.items k = buf.items k) ∧
    (∀ x : Nat,
      (buffer_get (buffer_put (buffer_init buf) x)).1 = x ∧
      buffer_is_empty (buffer_get (buffer_put (buffer_init buf) x)).2 = true ∧
      (buffer_get (buffer_put (buffer_init buf) x)).2.count = 0) := by
  have h1 : inc32 0 = 1 := inc32_small 0 (by omega)
  have h2 : dec32 1 = 0 := by
    have := dec32_small 1 (by omega) (by omega)
    omega
  refine ⟨rfl, ?_, ?_, rfl, fun _ => rfl, ?_⟩
  · simp only [buffer_get, buffer_get_count, buffer_get_advance, inc32, U32, BUFFER_SIZE]
    omega
  · simp only [buffer_get, buffer_get_count, buffer_get_advance, dec32, U32]
  · intro x
    refine ⟨?_, ?_, ?_⟩ <;>
      simp [buffer_get, buffer_get_load, buffer_get_count, buffer_get_advance, buffer_put,
        buffer_put_count, buffer_put_advance, buffer_put_store, buffer_init, buffer_is_empty,
        h1, h2]

/-- C11 at a buffer with `read_pos = 4`: the cursor wraps to `0`. -/
theorem C11_buffer_get_frame_witness :
    (buffer_get { items := fun k => 10 + k, read_pos := 4, write_pos := 1, count := 2 }).1 = 14 ∧
    (buffer_get { items := fun k => 10 + k, read_pos := 4, write_pos := 1, count := 2 }).2.read_pos
      = (4 + 1) % 5 ∧
    (buffer_get (buffer_put (buffer_init
      { items := fun k => 10 + k, read_pos := 4, write_pos := 1, count := 2 }) 7)).1 = 7 :=
  ⟨(C11_buffer_get_frame { items := fun k => 10 + k, read_pos := 4, write_pos := 1, count := 2 }
      (by decide)).1,
   (C11_buffer_get_frame { items := fun k => 10 + k, read_pos := 4, write_pos := 1, count := 2 }
      (by decide)).2.1,
   ((C11_buffer_get_frame { items := fun k => 10 + k, read_pos := 4, write_pos := 1, count := 2 }
      (by decide)).2.2.2.2.2 7).1⟩

theorem buffer_put_words_in_range (buf : circular_buffer_t) (item : Nat)
    (hw : buf.write_pos < 5) : buffer_put_words buf item = some (buffer_put buf item) := by
  simp only [buffer_put_words, buffer_put_store_words, if_pos hw, buffer_put]

/-- C20 as stated fails when `write_pos` is outside the array: on the full
buffer with `write_pos = 7` the store of line 129 lands on the field
`count`, so `buffer_put` of 9 leaves `count = 10`, not 6, and `buffer_put`
of 4 leaves `count = 5`, where `buffer_is_full` is true. -/
theorem C20_counterexample :
    (circular_buffer_t.mk (fun _ => 0) 0 7 5).count = 5 ∧
    (∃ b : circular_buffer_t,
      buffer_put_words (circular_buffer_t.mk (fun _ => 0) 0 7 5) 9 = some b ∧
      b.count = 10 ∧ b.count ≠ 6) ∧
    (∃ b : circular_buffer_t,
      buffer_put_words (circular_buffer_t.mk (fun _ => 0) 0 7 5) 4 = some b ∧
      b.count = 5 ∧ buffer_is_full b = true) := by
  have h9 : inc32 9 = 10 := inc32_small 9 (by omega)
  have h4 : inc32 4 = 5 := inc32_small 4 (by omega)
  refine ⟨rfl, ⟨_, rfl, ?_, ?_⟩, ⟨_, rfl, ?_, ?_⟩⟩
  · simp only [buffer_put_count, buffer_put_advance, h9]
  · simp only [buffer_put_count, buffer_put_advance, h9]
    omega
  · simp only [buffer_put_count, buffer_put_advance, h4]
  · simp only [buffer_is_full, buffer_put_count, buffer_put_advance, h4, BUFFER_SIZE,
      decide_True]

/-- C20, amended: `buffer_get` on a buffer with `count = 0` wraps `count` to
`4294967295`; `buffer_put` on a buffer with `count = 5` and `write_pos < 5`
(the store of line 129 stays inside the array, as in every state reached
from `buffer_init`) sets `count` to `6`; and in both resulting states
`buffer_is_empty` and `buffer_is_full` are both false. -/
theorem C20_misuse_defeats_tests (buf : circular_buffer_t) (item : Nat) :
    (buf.count = 0 →
      (buffer_get buf).2.count = 4294967295 ∧
      buffer_is_empty (buffer_get buf).2 = false ∧
      buffer_is_full (buffer_get buf).2 = false) ∧
    (buf.count = 5 → buf.write_pos < 5 →
      buffer_put_words buf item = some (buffer_put buf item) ∧
      (buffer_put buf item).count = 6 ∧
      buffer_is_empty (buffer_put buf item) = false ∧
      buffer_is_full (buffer_put buf item) = false) := by
  constructor
  · intro h
    simp [buffer_get, buffer_get_count, buffer_get_advance, buffer_is_empty, buffer_is_full,
      dec32, U32, BUFFER_SIZE, h]
  · intro h hw
    refine ⟨buffer_put_words_in_range buf item hw, ?_⟩
    simp [buffer_put, buffer_put_count, buffer_put_advance, buffer_put_store, buffer_is_empty,
      buffer_is_full, inc32, U32, BUFFER_SIZE, h]

/-- C20 (amended) at an empty and at a full buffer. -/
theorem C20_misuse_defeats_tests_witness :
    (buffer_get { items := fun _ => 0, read_pos := 0, write_pos := 0, count := 0 }).2.count
      = 4294967295 ∧
    (buffer_put { items := fun _ => 0, read_pos := 2, write_pos := 2, count := 5 } 9).count = 6 :=
  ⟨((C20_misuse_defeats_tests { items := fun _ => 0, read_pos := 0, write_pos := 0, count := 0 }
      0).1 rfl).1,
   ((C20_misuse_defeats_tests { items := fun _ => 0, read_pos := 2, write_pos := 2, count := 5 }
      9).2 rfl (by decide)).2.1⟩

/-- C19: in every buffer state reached from `buffer_init` by gated calls,
`write_pos = (read_pos + count) mod 5`; so `read_pos = write_pos` exactly
when the buffer is empty or full. -/
theorem C19_cursors_consistent (buf : circular_buffer_t) (calls : List BufferCall)
    (r : BufferRun) (h : gated_calls (gated_start buf) calls = some r) :
    r.buf.write_pos = (r.buf.read_pos + r.buf.count) % 5 ∧
    (r.buf.read_pos = r.buf.write_pos ↔
      (buffer_is_empty r.buf = true ∨ buffer_is_full r.buf = true)) := by
  obtain ⟨hr, hc, hw, _, _, _⟩ :=
    ringInv_gated_calls calls (gated_start buf) r (ringInv_start buf) h
  refine ⟨hw, ?_⟩
  simp only [buffer_is_empty, buffer_is_full, BUFFER_SIZE, decide_eq_true_eq]
  omega

/-- C19 after put, put, get: `read_pos = 1`, `write_pos = 2`, `count = 1`. -/
theorem C19_cursors_consistent_witness :
    ∃ r : BufferRun,
      gated_calls (gated_start { items := fun _ => 0, read_pos := 3, write_pos := 1, count := 4 })
        [BufferCall.put 7, BufferCall.put 8, BufferCall.get] = some r ∧
      r.buf.write_pos = (r.buf.read_pos + r.buf.count) % 5 :=
  ⟨_, rfl,
    (C19_cursors_consistent { items := fun _ => 0, read_pos := 3, write_pos := 1, count := 4 }
      [BufferCall.put 7, BufferCall.put 8, BufferCall.get] _ rfl).1⟩

/-- C17: in every buffer state reached from `buffer_init` by gated calls
that has `count = 5`, the slot at `read_pos` holds the oldest item not yet
returned, `buffer_put x` is carried out all the same (no check refuses it),
it writes `x` into that slot, and the next `buffer_get` returns `x`. -/
theorem C17_put_on_full_overwrites (buf : circular_buffer_t) (calls : List BufferCall)
    (r : BufferRun) (x : Nat) (h : gated_calls (gated_start buf) calls = some r)
    (hfull : r.buf.count = 5) :
    r.buf.write_pos = r.buf.read_pos ∧
    r.puts[r.gets.length]? = some (r.buf.items r.buf.read_pos) ∧
    (buffer_put r.buf x).items r.buf.read_pos = x ∧
    (buffer_put r.buf x).read_pos = r.buf.read_pos ∧
    (buffer_put r.buf x).count = 6 ∧
    (buffer_get (buffer_put r.buf x)).1 = x := by
  obtain ⟨hr, hc, hw, _, _, hitems⟩ :=
    ringInv_gated_calls calls (gated_start buf) r (ringInv_start buf) h
  have hwr : r.buf.write_pos = r.buf.read_pos := by omega
  have h0 := hitems 0 (by omega)
  rw [Nat.add_zero, Nat.add_zero, Nat.mod_eq_of_lt hr] at h0
  refine ⟨hwr, h0, ?_, rfl, ?_, ?_⟩
  · simp [buffer_put, buffer_put_count, buffer_put_advance, buffer_put_store, hwr]
  · simp [buffer_put, buffer_put_count, buffer_put_advance, buffer_put_store, inc32, U32, hfull]
  · simp [buffer_get, buffer_get_load, buffer_put, buffer_put_count, buffer_put_advance,
      buffer_put_store, hwr]

/-- C17 after five puts of 1..5: a sixth put of 99 replaces the 1, and the
next get returns 99. -/
theorem C17_put_on_full_overwrites_witness :
    ∃ r : BufferRun,
      gated_calls (gated_start { items := fun _ => 0, read_pos := 0, write_pos := 0, count := 0 })
        [BufferCall.put 1, BufferCall.put 2, BufferCall.put 3, BufferCall.put 4,
          BufferCall.put 5] = some r ∧
      r.puts[r.gets.length]? = some (r.buf.items r.buf.read_pos) ∧
      (buffer_get (buffer_put r.buf 99)).1 = 99 :=
  ⟨_, rfl,
    (C17_put_on_full_overwrites { items := fun _ => 0, read_pos := 0, write_pos := 0, count := 0 }
      [BufferCall.put 1, BufferCall.put 2, BufferCall.put 3, BufferCall.put 4, BufferCall.put 5]
      _ 99 rfl rfl).2.1,
    (C17_put_on_full_overwrites { items := fun _ => 0, read_pos := 0, write_pos := 0, count := 0 }
      [BufferCall.put 1, BufferCall.put 2, BufferCall.put 3, BufferCall.put 4, BufferCall.put 5]
      _ 99 rfl rfl).2.2.2.2.2⟩

/-! ## The interleaved tasks: the `waiting` counters -/

theorem waitingInv_init : WaitingInv init := by
  constructor <;> decide

theorem waitingInv_producer (s : State) (h : WaitingInv s) :
    WaitingInv (producer_task_step s) := by
  obtain ⟨mutex, ne, nf, buf, pd, ppc, i, item, cpc, citem, consumed, sig, wk⟩ := s
  obtain ⟨nfl, nfw, nft⟩ := nf
  obtain ⟨h1, h2⟩ := h
  dsimp only at h1 h2
  have e1 := inc32_small nfw
  have e2 := dec32_small nfw
  cases ppc <;> (try (rename_i w; cases w)) <;>
    simp only [ProducerPc.waiting_on, WaitPc.counted] at h2 <;>
    simp only [producer_task_step, cond_wait_step, cond_signal_step, ProducerPc.after_wait,
      ProducerPc.after_signal, cond_wait_enter] <;>
    (try split_ifs) <;>
    constructor <;>
    dsimp only <;>
    (try simp only [ProducerPc.waiting_on, WaitPc.counted]) <;>
    omega

theorem waitingInv_consumer (s : State) (h : WaitingInv s) :
    WaitingInv (consumer_task_step s) := by
  obtain ⟨mutex, ne, nf, buf, pd, ppc, i, item, cpc, citem, consumed, sig, wk⟩ := s
  obtain ⟨nel, new, net⟩ := ne
  obtain ⟨h1, h2⟩ := h
  dsimp only at h1 h2
  have e1 := inc32_small new
  have e2 := dec32_small new
  cases cpc <;> (try (rename_i w; cases w)) <;>
    simp only [ConsumerPc.waiting_on, WaitPc.counted] at h1 <;>
    simp only [consumer_task_step, cond_wait_step, cond_signal_step, ConsumerPc.after_wait,
      ConsumerPc.after_signal, cond_wait_enter, reduceCtorEq, if_true, if_false] <;>
    (try split_ifs) <;>
    constructor <;>
    dsimp only <;>
    (try simp only [ConsumerPc.waiting_on, WaitPc.counted]) <;>
    omega

theorem waitingInv_run (sched : List Hart) (s : State) (h : WaitingInv s) :
    WaitingInv (run sched s) := by
  induction sched generalizing s with
  | nil => exact h
  | cons a t ih =>
    cases a
    · exact ih _ (waitingInv_producer s h)
    · exact ih _ (waitingInv_consumer s h)

theorem waitingInv_of_reachable (s : State) (h : Reachable s) : WaitingInv s := by
  obtain ⟨sched, rfl⟩ := h
  exact waitingInv_run sched init waitingInv_init

theorem waitPc_counted_le (w : WaitPc) : w.counted ≤ 1 := by
  cases w <;> decide

/-- C16: in every reachable state of the two interleaved tasks,
`not_empty.waiting` is the number of `cond_wait(&not_empty, ..)` calls that
have executed `waiting++` and not yet `waiting--` (only the consumer makes
such calls), and likewise `not_full.waiting` for the producer; so both are at
most 1, and `waiting--` is executed only on a positive `waiting`. -/
theorem C16_waiting_counts_waiters (s : State) (h : Reachable s) :
    s.not_empty.waiting = s.cpc.waiting_on ∧
    s.not_full.waiting = s.ppc.waiting_on ∧
    s.not_empty.waiting ≤ 1 ∧ s.not_full.waiting ≤ 1 ∧
    (s.cpc = ConsumerPc.wait WaitPc.dec_waiting → 0 < s.not_empty.waiting) ∧
    (s.ppc = ProducerPc.wait WaitPc.dec_waiting → 0 < s.not_full.waiting) := by
  obtain ⟨h1, h2⟩ := waitingInv_of_reachable s h
  have hc : s.cpc.waiting_on ≤ 1 := by
    cases s.cpc <;> first | exact waitPc_counted_le _ | exact Nat.zero_le 1
  have hp : s.ppc.waiting_on ≤ 1 := by
    cases s.ppc <;> first | exact waitPc_counted_le _ | exact Nat.zero_le 1
  refine ⟨h1, h2, by omega, by omega, ?_, ?_⟩
  · intro hpc
    rw [h1, hpc]
    decide
  · intro hpc
    rw [h2, hpc]
    decide

/-- C16 at the state where the consumer has entered
`cond_wait(&not_empty, &mutex)` and released the mutex: `waiting = 1`. -/
theorem C16_waiting_counts_waiters_witness :
    (run (List.replicate 8 Hart.consumer) init).not_empty.waiting = 1 ∧
    (run (List.replicate 8 Hart.consumer) init).cpc.waiting_on = 1 ∧
    (run (List.replicate 8 Hart.consumer) init).not_empty.waiting
      = (run (List.replicate 8 Hart.consumer) init).cpc.waiting_on :=
  ⟨by decide, by decide,
    (C16_waiting_counts_waiters _ ⟨List.replicate 8 Hart.consumer, rfl⟩).1⟩

/-! ## The interleaved tasks: preconditions of the buffer calls, `producer_done` -/

/-- C12: in every reachable state of the two interleaved tasks, while the
producer is inside `buffer_put` (before its `count++`) the buffer has
`count < 5`, while the consumer is inside `buffer_get` (before its
`count--`) the buffer has `count > 0`, and `count ≤ 5` throughout. -/
theorem C12_preconditions_respected (s : State) (h : Reachable s) :
    ((s.ppc = ProducerPc.put_store ∨ s.ppc = ProducerPc.put_advance ∨
        s.ppc = ProducerPc.put_count) →
      s.buffer.count < 5 ∧ buffer_is_full s.buffer = false) ∧
    ((s.cpc = ConsumerPc.get_load ∨ s.cpc = ConsumerPc.get_advance ∨
        s.cpc = ConsumerPc.get_count) →
      0 < s.buffer.count ∧ buffer_is_empty s.buffer = false) ∧
    s.buffer.count ≤ 5 := by
  have hd := dataInv_of_reachable s h
  have h6 := hd.count_le
  have h7 := hd.count_pos
  refine ⟨?_, ?_, by omega⟩
  · intro hpc
    have hp : s.ppc.count_pending = 1 := by
      rcases hpc with hpc | hpc | hpc <;> rw [hpc] <;> rfl
    have hlt : s.buffer.count < 5 := by omega
    refine ⟨hlt, ?_⟩
    simp only [buffer_is_full, BUFFER_SIZE, decide_eq_false_iff_not]
    omega
  · intro hpc
    have hg : s.cpc.getting = 1 := by
      rcases hpc with hpc | hpc | hpc <;> rw [hpc] <;> rfl
    have hpos : 0 < s.buffer.count := by omega
    refine ⟨hpos, ?_⟩
    simp only [buffer_is_empty, decide_eq_false_iff_not]
    omega

/-- C12 at the state where the producer is about to store its first item. -/
theorem C12_preconditions_respected_witness :
    (run [Hart.producer, Hart.producer] init).ppc = ProducerPc.put_store ∧
    (run [Hart.producer, Hart.producer] init).buffer.count < 5 :=
  ⟨rfl,
    ((C12_preconditions_respected _ ⟨[Hart.producer, Hart.producer], rfl⟩).1
      (Or.inl rfl)).1⟩

theorem producer_done_step (a : Hart) (s : State) (h : s.producer_done = true) :
    (step a s).producer_done = true := by
  obtain ⟨mutex, ne, nf, buf, pd, ppc, i, item, cpc, citem, consumed, sig, wk⟩ := s
  dsimp only at h
  subst h
  cases a
  · cases ppc <;>
      simp only [step, producer_task_step] <;>
      (try split_ifs) <;>
      rfl
  · cases cpc <;>
      simp only [step, consumer_task_step] <;>
      (try split_ifs) <;>
      rfl

theorem producer_done_run (sched : List Hart) (s : State) (h : s.producer_done = true) :
    (run sched s).producer_done = true := by
  induction sched generalizing s with
  | nil => exact h
  | cons a t ih => exact ih _ (producer_done_step a s h)

/-- C14: in every reachable state of the two interleaved tasks,
`producer_done == true` implies that the producer has returned after ten
loop iterations with `item = 10`, that all ten values are either still in
the buffer or already consumed, and that they were the values `1, ..., 10`
in order; and once `producer_done` is true it is true in every later
state. -/
theorem C14_producer_done_one_shot (s : State) (h : Reachable s)
    (hd : s.producer_done = true) :
    (s.ppc = ProducerPc.done ∧ s.p_i = 10 ∧ s.p_item = 10 ∧
      s.buffer.count + s.consumed.length = 10 ∧
      s.consumed = List.range' 1 s.consumed.length ∧
      ∀ k : Nat, s.consumed.length ≤ k → k < 10 → s.buffer.items (k % 5) = k + 1) ∧
    ∀ sched : List Hart, (run sched s).producer_done = true := by
  have hi := dataInv_of_reachable s h
  have hp := producer_pending_le s.ppc
  have h1 := hi.i_item
  have h2 := hi.i_hi
  have h3 := hi.i_lo
  have h4 := hi.done_flag
  have h5 := hi.count_eq
  rw [hd] at h4
  simp only [Bool.toNat_true] at h4
  have hpc : s.ppc = ProducerPc.done := by
    cases hq : s.ppc <;> rw [hq] at h4 <;>
      first
        | rfl
        | (simp [ProducerPc.has_set_done] at h4)
  refine ⟨⟨hpc, by omega, by omega, by omega, hi.consumed_eq, ?_⟩, ?_⟩
  · intro k hk1 hk2
    exact hi.items k hk1 (by omega)
  · intro sched
    exact producer_done_run sched s hd

set_option maxRecDepth 1000000 in
/-- C14 at the end of `full_run_schedule`. -/
theorem C14_producer_done_one_shot_witness :
    (run full_run_schedule init).producer_done = true ∧
    (run full_run_schedule init).p_item = 10 ∧
    (run full_run_schedule init).ppc = ProducerPc.done :=
  ⟨by decide,
    (C14_producer_done_one_shot (run full_run_schedule init) ⟨full_run_schedule, rfl⟩
      (by decide)).1.2.2.1,
    (C14_producer_done_one_shot (run full_run_schedule init) ⟨full_run_schedule, rfl⟩
      (by decide)).1.1⟩

/-! ## Condition variable: what a signal and a poll change -/

/-- C15 as stated fails at `to_wake = 2^32 - 1`: with `waiting = 1`,
`cond_signal` returns with `to_wake = 0`, not `to_wake + 1`. -/
theorem C15_counterexample :
    0 < (cond_t.mk mutex_t.MUTEX_UNLOCKED 1 4294967295).waiting ∧
    cond_signal 1 (cond_t.mk mutex_t.MUTEX_UNLOCKED 1 4294967295)
      = some (cond_t.mk mutex_t.MUTEX_UNLOCKED 1 0) ∧
    (cond_signal_body (cond_t.mk mutex_t.MUTEX_UNLOCKED 1 4294967295)).to_wake = 0 ∧
    (cond_signal_body (cond_t.mk mutex_t.MUTEX_UNLOCKED 1 4294967295)).to_wake
      ≠ (cond_t.mk mutex_t.MUTEX_UNLOCKED 1 4294967295).to_wake + 1 := by
  have h : inc32 4294967295 = 0 := by
    unfold inc32 U32
    omega
  refine ⟨Nat.one_pos, ?_, ?_, ?_⟩ <;>
    simp [cond_signal, cond_signal_body, mutex_lock, mutex_trylock, mutex_unlock, h]

/-- C15, amended: with `waiting > 0`, `cond_signal` sets `to_wake` to
`(to_wake + 1) mod 2^32`, which is `to_wake + 1` unless `to_wake = 2^32 - 1`,
and leaves `waiting` as it was (with the internal lock free it returns at the
first try); no step of `cond_signal` changes `waiting`; a step of `cond_wait`
changes `waiting` only at line 59 (`waiting++`) or line 67 (`waiting--`);
line 67 is reached only from line 66 (`to_wake--`), and line 66 only from the
test of line 65 on `to_wake > 0`. -/
theorem C15_signal_and_poll (cv : cond_t) (hw : 0 < cv.waiting) :
    (cond_signal_body cv).to_wake = (cv.to_wake + 1) % 4294967296 ∧
    (cv.to_wake + 1 < 4294967296 → (cond_signal_body cv).to_wake = cv.to_wake + 1) ∧
    (cond_signal_body cv).waiting = cv.waiting ∧
    (cv.lock = mutex_t.MUTEX_UNLOCKED → ∀ fuel : Nat,
      cond_signal (fuel + 1) cv
        = some { lock := mutex_t.MUTEX_UNLOCKED, waiting := cv.waiting,
                 to_wake := (cv.to_wake + 1) % 4294967296 }) ∧
    (∀ pc : SigPc, (cond_signal_step pc cv).2.waiting = cv.waiting) ∧
    (∀ (pc : WaitPc) (m : mutex_t), (cond_wait_step pc cv m).2.1.waiting ≠ cv.waiting →
      pc = WaitPc.inc_waiting ∨ pc = WaitPc.dec_waiting) ∧
    (∀ (pc : WaitPc) (m : mutex_t),
      (cond_wait_step pc cv m).1 = some WaitPc.dec_waiting →
        pc = WaitPc.dec_to_wake ∧
        (cond_wait_step pc cv m).2.1.to_wake = (cv.to_wake + 4294967296 - 1) % 4294967296) ∧
    (∀ (pc : WaitPc) (m : mutex_t),
      (cond_wait_step pc cv m).1 = some WaitPc.dec_to_wake →
        pc = WaitPc.poll_test ∧ 0 < cv.to_wake) ∧
    ((cond_wait_consume cv).2.waiting ≠ cv.waiting → 0 < cv.to_wake) := by
  obtain ⟨l, w, t⟩ := cv
  dsimp only at hw
  have hbody : ∀ l1 : mutex_t, cond_signal_body { lock := l1, waiting := w, to_wake := t }
      = { lock := l1, waiting := w, to_wake := inc32 t } := by
    intro l1
    simp only [cond_signal_body]
    rw [if_pos hw]
  have hinc : inc32 t = (t + 1) % 4294967296 := by
    simp only [inc32, U32]
  have hdec : dec32 t = (t + 4294967296 - 1) % 4294967296 := by
    simp only [dec32, U32]
  refine ⟨?_, ?_, ?_, ?_, ?_, ?_, ?_, ?_, ?_⟩
  · rw [hbody]
    exact hinc
  · intro hlt
    rw [hbody]
    exact inc32_small t hlt
  · rw [hbody]
  · intro hl fuel
    dsimp only at hl
    subst hl
    simp only [cond_signal, mutex_lock, mutex_trylock]
    simp only [ne_eq, reduceCtorEq, not_false_eq_true, decide_True, if_true, hbody, mutex_unlock,
      hinc]
  · intro pc
    cases pc <;> simp only [cond_signal_step] <;> (try split_ifs) <;> rfl
  · intro pc m hne
    cases pc <;> simp only [cond_wait_step] at hne <;> (try split_ifs at hne) <;>
      first
        | exact Or.inl rfl
        | exact Or.inr rfl
        | exact absurd rfl hne
  · intro pc m hpc
    cases pc with
    | dec_to_wake => exact ⟨rfl, hdec⟩
    | lock_cv => simp only [cond_wait_step] at hpc; split_ifs at hpc <;> simp at hpc
    | poll_lock => simp only [cond_wait_step] at hpc; split_ifs at hpc <;> simp at hpc
    | poll_test => simp only [cond_wait_step] at hpc; split_ifs at hpc <;> simp at hpc
    | relock => simp only [cond_wait_step] at hpc; split_ifs at hpc; simp at hpc
    | _ => simp [cond_wait_step] at hpc
  · intro pc m hpc
    cases pc with
    | poll_test =>
      simp only [cond_wait_step] at hpc
      split_ifs at hpc with hpos
      · exact ⟨rfl, hpos⟩
      · simp at hpc
    | lock_cv => simp only [cond_wait_step] at hpc; split_ifs at hpc <;> simp at hpc
    | poll_lock => simp only [cond_wait_step] at hpc; split_ifs at hpc <;> simp at hpc
    | relock => simp only [cond_wait_step] at hpc; split_ifs at hpc; simp at hpc
    | _ => simp [cond_wait_step] at hpc
  · intro hne
    simp only [cond_wait_consume] at hne
    split_ifs at hne with hpos
    · exact hpos
    · exact absurd rfl hne

/-- C15 (amended) at `waiting = 1`, `to_wake = 0` with the lock free. -/
theorem C15_signal_and_poll_witness :
    (cond_signal_body (cond_t.mk mutex_t.MUTEX_UNLOCKED 1 0)).to_wake = 0 + 1 ∧
    (cond_signal_body (cond_t.mk mutex_t.MUTEX_UNLOCKED 1 0)).waiting = 1 ∧
    cond_signal 1 (cond_t.mk mutex_t.MUTEX_UNLOCKED 1 0)
      = some { lock := mutex_t.MUTEX_UNLOCKED, waiting := 1, to_wake := (0 + 1) % 4294967296 } :=
  ⟨(C15_signal_and_poll (cond_t.mk mutex_t.MUTEX_UNLOCKED 1 0) (by decide)).2.1 (by decide),
   (C15_signal_and_poll (cond_t.mk mutex_t.MUTEX_UNLOCKED 1 0) (by decide)).2.2.1,
   (C15_signal_and_poll (cond_t.mk mutex_t.MUTEX_UNLOCKED 1 0) (by decide)).2.2.2.1 rfl 0⟩

/-! ## `print_uint` -/

theorem digit_char_eq (d : Nat) (h : d < 10) : digit_char d = Nat.digitChar d := by
  interval_cases d <;> rfl

theorem print_uint_emit_congr (buf buf1 : Nat → Char) (i : Nat)
    (h : ∀ k : Nat, k < i → buf1 k = buf k) : print_uint_emit buf1 i = print_uint_emit buf i := by
  induction i with
  | zero => rfl
  | succ n ih =>
    simp only [print_uint_emit]
    rw [ih (fun k hk => h k (Nat.lt_succ_of_lt hk)), h n (Nat.lt_succ_self n)]

theorem print_uint_emit_store (buf : Nat → Char) (i : Nat) (c : Char) (ds : List Char)
    (hi : i < 12) (h : print_uint_emit buf i = some ds) :
    print_uint_emit (fun k => if k = i then c else buf k) (i + 1) = some (c :: ds) := by
  have hc : print_uint_emit (fun k => if k = i then c else buf k) i = print_uint_emit buf i := by
    apply print_uint_emit_congr
    intro k hk
    rw [if_neg (Nat.ne_of_lt hk)]
  simp only [print_uint_emit, if_pos hi, hc, h, if_true]

theorem print_uint_fill_spec (k : Nat) :
    ∀ (fuel val : Nat) (buf : Nat → Char) (i F : Nat) (ds : List Char),
      val < 10 ^ (k + 1) → k + 1 ≤ fuel → i + (k + 1) ≤ 12 → val < F →
      print_uint_emit buf i = some ds →
      ∃ (buf1 : Nat → Char) (i1 : Nat),
        print_uint_fill fuel val buf i = some (buf1, i1) ∧ i1 ≤ i + (k + 1) ∧
        print_uint_emit buf1 i1 = some (Nat.toDigitsCore 10 F val ds) := by
  induction k with
  | zero =>
    intro fuel val buf i F ds hv hf hi hF he
    obtain ⟨f, rfl⟩ : ∃ f, fuel = f + 1 := ⟨fuel - 1, by omega⟩
    obtain ⟨G, rfl⟩ : ∃ G, F = G + 1 := ⟨F - 1, by omega⟩
    have hi12 : i < 12 := by omega
    have hq : val / 10 = 0 := by omega
    refine ⟨fun k => if k = i then digit_char (val % 10) else buf k, i + 1, ?_, by omega, ?_⟩
    · simp only [print_uint_fill, if_pos hi12, hq, ne_eq, not_true_eq_false, if_false]
    · rw [print_uint_emit_store buf i _ ds hi12 he]
      simp only [Nat.toDigitsCore, hq, if_true]
      rw [digit_char_eq _ (Nat.mod_lt _ (by decide))]
  | succ n ih =>
    intro fuel val buf i F ds hv hf hi hF he
    obtain ⟨f, rfl⟩ : ∃ f, fuel = f + 1 := ⟨fuel - 1, by omega⟩
    obtain ⟨G, rfl⟩ : ∃ G, F = G + 1 := ⟨F - 1, by omega⟩
    have hi12 : i < 12 := by omega
    by_cases hq : val / 10 = 0
    · refine ⟨fun k => if k = i then digit_char (val % 10) else buf k, i + 1, ?_, by omega, ?_⟩
      · simp only [print_uint_fill, if_pos hi12, hq, ne_eq, not_true_eq_false, if_false]
      · rw [print_uint_emit_store buf i _ ds hi12 he]
        simp only [Nat.toDigitsCore, hq, if_true]
        rw [digit_char_eq _ (Nat.mod_lt _ (by decide))]
    · have hv1 : val / 10 < 10 ^ (n + 1) := by
        rw [Nat.div_lt_iff_lt_mul (by decide)]
        rw [Nat.pow_succ] at hv
        exact hv
      have he1 := print_uint_emit_store buf i (digit_char (val % 10)) ds hi12 he
      obtain ⟨buf1, i1, h1, h2, h3⟩ :=
        ih f (val / 10) (fun k => if k = i then digit_char (val % 10) else buf k) (i + 1) G
          (digit_char (val % 10) :: ds) hv1 (by omega) (by omega) (by omega) he1
      refine ⟨buf1, i1, ?_, by omega, ?_⟩
      · simp only [print_uint_fill, if_pos hi12, ne_eq, hq, not_false_eq_true, if_true]
        exact h1
      · rw [h3]
        simp only [Nat.toDigitsCore, hq, if_false]
        rw [digit_char_eq _ (Nat.mod_lt _ (by decide))]

theorem toDigitsCore_head_ne_zero (F : Nat) :
    ∀ (n : Nat) (ds : List Char), n < F → n ≠ 0 →
      (Nat.toDigitsCore 10 F n ds).head? ≠ some (Nat.digitChar 0) := by
  induction F with
  | zero => intro n ds h; omega
  | succ G ih =>
    intro n ds hn h0
    simp only [Nat.toDigitsCore]
    by_cases hq : n / 10 = 0
    · simp only [hq, if_true, List.head?_cons, ne_eq, Option.some.injEq]
      have hlt : n < 10 := by omega
      have hmod : n % 10 = n := Nat.mod_eq_of_lt hlt
      rw [hmod]
      interval_cases n <;> first | exact absurd rfl h0 | decide
    · simp only [hq, if_false]
      exact ih (n / 10) _ (by omega) hq

/-- C18: for every 32-bit `val`, with fuel for ten iterations and whatever
the array held before, `print_uint` passes to `uart_putc` exactly the decimal
digits of `val`, most significant first (the characters of `toString val`),
with no leading zero (the one character `0` for `val = 0`); the first loop
ends with index at most 10, so every access to the 12-byte array is in
range. -/
theorem C18_print_uint_decimal (val fuel : Nat) (buf0 : Nat → Char)
    (hv : val < 4294967296) (hf : 10 ≤ fuel) :
    print_uint fuel buf0 val = some (Nat.toDigits 10 val) ∧
    String.mk (Nat.toDigits 10 val) = toString val ∧
    (∃ (buf1 : Nat → Char) (i1 : Nat),
      print_uint_fill fuel val buf0 0 = some (buf1, i1) ∧ i1 ≤ 10 ∧
      (Nat.toDigits 10 val).length ≤ 10) ∧
    (val ≠ 0 → (Nat.toDigits 10 val).head? ≠ some (Nat.digitChar 0)) ∧
    (val = 0 → print_uint fuel buf0 val = some [Nat.digitChar 0]) := by
  have hv10 : val < 10 ^ (9 + 1) := by
    have : (10 : Nat) ^ (9 + 1) = 10000000000 := by norm_num
    omega
  obtain ⟨buf1, i1, h1, h2, h3⟩ :=
    print_uint_fill_spec 9 fuel val buf0 0 (val + 1) [] hv10 (by omega) (by omega)
      (Nat.lt_succ_self val) rfl
  have hp : print_uint fuel buf0 val = some (Nat.toDigits 10 val) := by
    simp only [print_uint, h1, h3, Nat.toDigits]
  have hlen : (Nat.toDigits 10 val).length ≤ 10 := by
    have := Nat.toDigitsCore_length 10 (by decide) (val + 1) val 10 hv10 (by decide)
    exact this
  refine ⟨hp, rfl, ⟨buf1, i1, h1, by omega, hlen⟩, ?_, ?_⟩
  · intro h0
    exact toDigitsCore_head_ne_zero (val + 1) val [] (Nat.lt_succ_self val) h0
  · intro h0
    rw [hp, h0]
    rfl

/-- C18 at `val = 4205`: the characters `4`, `2`, `0`, `5`. -/
theorem C18_print_uint_decimal_witness :
    print_uint 10 (fun _ => Char.ofNat 0) 4205 = some (Nat.toDigits 10 4205) ∧
    String.mk (Nat.toDigits 10 4205) = toString 4205 :=
  ⟨(C18_print_uint_decimal 4205 10 (fun _ => Char.ofNat 0) (by decide) (by decide)).1,
   (C18_print_uint_decimal 4205 10 (fun _ => Char.ofNat 0) (by decide) (by decide)).2.1⟩

/-! ## The whole program: initialisation by every hart -/

theorem main_init_buffer (s : State) :
    (main_init_step MainPc.init_count
      (main_init_step MainPc.init_write_pos
        (main_init_step MainPc.init_read_pos s).2).2).2.buffer = buffer_init s.buffer := rfl

theorem main_init_not_empty (s : State) :
    (main_init_step MainPc.init_not_empty_to_wake
      (main_init_step MainPc.init_not_empty_waiting s).2).2.not_empty
      = cond_init s.not_empty := rfl

theorem main_init_not_full (s : State) :
    (main_init_step MainPc.init_not_full_to_wake
      (main_init_step MainPc.init_not_full_waiting s).2).2.not_full
      = cond_init s.not_full := rfl

theorem boot_initialised :
    (main_run (List.replicate 7 Hart.producer ++ List.replicate 7 Hart.consumer) boot).shared
      = init := rfl

theorem producer_step_buffer (s : State) (h : s.ppc.holds_mutex = false) :
    (producer_task_step s).buffer = s.buffer := by
  obtain ⟨mutex, ne, nf, buf, pd, ppc, i, item, cpc, citem, consumed, sig, wk⟩ := s
  dsimp only at h
  cases ppc <;> (try (rename_i w; cases w)) <;>
    first
      | exact absurd h (by decide)
      | (simp only [producer_task_step, cond_wait_step, ProducerPc.after_wait]
         all_goals ((try split_ifs) <;> rfl))

theorem consumer_step_buffer (s : State) (h : s.cpc.holds_mutex = false) :
    (consumer_task_step s).buffer = s.buffer := by
  obtain ⟨mutex, ne, nf, buf, pd, ppc, i, item, cpc, citem, consumed, sig, wk⟩ := s
  dsimp only at h
  cases cpc <;> (try (rename_i w; cases w)) <;>
    first
      | exact absurd h (by decide)
      | (simp only [consumer_task_step, cond_wait_step, ConsumerPc.after_wait]
         all_goals ((try split_ifs) <;> rfl))

set_option maxRecDepth 1000000 in
/-- C13 fails on `late_init_schedule`: hart 0 is inside its task holding the
mutex, with the first item stored (`write_pos = 1`, `count = 1`), when hart 1,
still in `main` and holding nothing, executes `buf->write_pos = 0` and
`buf->count = 0` of `buffer_init`; both stores change the buffer.  After
`late_init_continuation` the first value the consumer obtains is 2: item 1
is lost. -/
theorem C13_late_init_clobbers_buffer :
    (main_run late_init_schedule boot).main0 = MainPc.task ∧
    (main_run late_init_schedule boot).main1 = MainPc.init_write_pos ∧
    (main_run late_init_schedule boot).holds_mutex Hart.producer = true ∧
    (main_run late_init_schedule boot).holds_mutex Hart.consumer = false ∧
    (main_run late_init_schedule boot).shared.buffer.write_pos = 1 ∧
    (main_step Hart.consumer (main_run late_init_schedule boot)).shared.buffer.write_pos = 0 ∧
    (main_step Hart.consumer (main_run late_init_schedule boot)).shared.buffer.count = 1 ∧
    (main_step Hart.consumer
      (main_step Hart.consumer (main_run late_init_schedule boot))).shared.buffer.count = 0 ∧
    (main_step Hart.consumer
      (main_step Hart.consumer (main_run late_init_schedule boot))).holds_mutex Hart.consumer
        = false ∧
    (main_run (late_init_schedule ++ late_init_continuation) boot).shared.consumed = [2] := by
  decide

/-! ## The store of line 129 stays inside the array -/

theorem reachable_cursors_in_range (s : State) (h : Reachable s) :
    s.buffer.write_pos < 5 ∧ s.buffer.read_pos < 5 ∧
    ∀ item : Nat, buffer_put_store_words s.buffer item = some (buffer_put_store s.buffer item) := by
  have hd := dataInv_of_reachable s h
  have h8 := hd.wpos
  have h9 := hd.rpos
  have hw : s.buffer.write_pos < 5 := by omega
  refine ⟨hw, by omega, ?_⟩
  intro item
  simp only [buffer_put_store_words, if_pos hw]

theorem gated_cursors_in_range (buf : circular_buffer_t) (calls : List BufferCall)
    (r : BufferRun) (h : gated_calls (gated_start buf) calls = some r) :
    r.buf.write_pos < 5 ∧ r.buf.read_pos < 5 ∧
    ∀ item : Nat, buffer_put_words r.buf item = some (buffer_put r.buf item) := by
  obtain ⟨hr, _, hw, _, _, _⟩ :=
    ringInv_gated_calls calls (gated_start buf) r (ringInv_start buf) h
  have hlt : r.buf.write_pos < 5 := by omega
  exact ⟨hlt, hr, fun item => buffer_put_words_in_range r.buf item hlt⟩

end FinalTerm
